import Mathlib

/-!
# A model of quipper's `PerfParser` (src/quipper/perf_parser.cc)

This file embeds the event-processing core of `perf_parser.cc` as executable
Lean definitions and proves properties of the embedding.  Machine integers are
modelled as `Nat` with explicit `% 2^64` where the C++ performs wrapping
64-bit arithmetic.  Fatal `CHECK` failures (which kill the process) are
modelled by `Option`/`none`; the `return false` paths of `ProcessEvents` are
modelled by an explicit `Bool` result.

The `AddressMapper` class lives in `address_mapper.h`/`address_mapper.cc`,
which are not part of the sources here; it is modelled from the spec
(sections 3 and 4.A), as noted on each of its definitions.
-/

namespace PerfParse

/-- `2^64`, the modulus of the C++ `uint64_t` arithmetic. -/
def U64 : Nat := 2 ^ 64

/-- Wrapping 64-bit addition. -/
def add64 (a b : Nat) : Nat := (a + b) % U64

/-- Wrapping 64-bit subtraction (arguments are taken mod `2^64`). -/
def sub64 (a b : Nat) : Nat := (a % U64 + U64 - b % U64) % U64

/-- `(uint64_t)first << 32 | second` (perf_parser.cc:330, `mergeTwoU32`). -/
def mergeTwoU32 (first second : Nat) : Nat := (first % 2 ^ 32) * 2 ^ 32 + second % 2 ^ 32

-- Record-type constants from the perf ABI (kernel/perf_event.h mirror used by
-- quipper's proto definitions).
def PERF_RECORD_MMAP : Nat := 1
def PERF_RECORD_LOST : Nat := 2
def PERF_RECORD_COMM : Nat := 3
def PERF_RECORD_EXIT : Nat := 4
def PERF_RECORD_THROTTLE : Nat := 5
def PERF_RECORD_UNTHROTTLE : Nat := 6
def PERF_RECORD_FORK : Nat := 7
def PERF_RECORD_SAMPLE : Nat := 9
def PERF_RECORD_MMAP2 : Nat := 10
def PERF_RECORD_AUX : Nat := 11
def PERF_RECORD_ITRACE_START : Nat := 12
def PERF_RECORD_LOST_SAMPLES : Nat := 13
def PERF_RECORD_SWITCH : Nat := 14
def PERF_RECORD_SWITCH_CPU_WIDE : Nat := 15
def PERF_RECORD_NAMESPACES : Nat := 16
def PERF_RECORD_CGROUP : Nat := 19
def PERF_RECORD_USER_TYPE_START : Nat := 64
def PERF_RECORD_FINISHED_ROUND : Nat := 68
def PERF_RECORD_MISC_CPUMODE_MASK : Nat := 7
def PERF_RECORD_MISC_KERNEL : Nat := 1

/-- `PERF_CONTEXT_MAX = (u64)-4095`: call-chain values at or above this are
context markers. -/
def PERF_CONTEXT_MAX : Nat := U64 - 4095

/-- perf_parser.cc:39: MMAPs are aligned to pages of this many bytes
(`sysconf(_SC_PAGESIZE)`, 4096 on the targeted systems). -/
def kMmapPageAlignment : Nat := 4096

/-- perf_parser.cc:43. -/
def kSwapperPid : Nat := 0

/-- perf_parser.cc:42. -/
def kSwapperCommandName : String := "swapper"

/-- Modelled from the spec: `kKernelPid` is declared in `perf_parser.h`, which
is not among the sources; the spec (section 6) calls it a "distinguished
sentinel" pid used only for mapper inheritance.  quipper uses `(uint32_t)-1`;
only its distinguishedness matters below. -/
def kKernelPid : Nat := 2 ^ 32 - 1

/-- perf_parser.cc:47, `GetPageAlignedOffset`: offset of an address within a
page of `kMmapPageAlignment` bytes. -/
def GetPageAlignedOffset (addr : Nat) : Nat := addr % kMmapPageAlignment

/-! ## Event payloads (`PerfDataProto` subset used by the core) -/

structure MMapData where
  pid : Nat
  tid : Nat
  start : Nat
  len : Nat
  pgoff : Nat
  maj : Nat
  min : Nat
  ino : Nat
  filename : String
  deriving Repr, DecidableEq

/-- The default (proto3) MMAP payload, as produced by `mutable_mmap_event()`
on a record that carries none. -/
def MMapData.zero : MMapData := ⟨0, 0, 0, 0, 0, 0, 0, 0, ""⟩

structure BranchStackEntryData where
  from_ip : Nat
  to_ip : Nat
  mispredicted : Bool
  predicted : Bool
  in_transaction : Bool
  abortTx : Bool
  cycles : Nat
  deriving Repr, DecidableEq

structure SampleData where
  pid : Nat
  tid : Nat
  ip : Nat
  hasAddr : Bool
  addr : Nat
  callchain : List Nat
  branchStack : List BranchStackEntryData
  deriving Repr, DecidableEq

structure CommData where
  pid : Nat
  tid : Nat
  comm : String
  deriving Repr, DecidableEq

def CommData.zero : CommData := ⟨0, 0, ""⟩

structure ForkData where
  pid : Nat
  tid : Nat
  ppid : Nat
  ptid : Nat
  deriving Repr, DecidableEq

def ForkData.zero : ForkData := ⟨0, 0, 0, 0⟩

/-- One decoded record.  `etype`/`misc` come from the header; at most one of
the payloads is populated (an absent payload mirrors the proto's
`has_..._event() == false`). -/
structure PerfEvent where
  etype : Nat
  misc : Nat
  sample : Option SampleData
  mmap : Option MMapData
  commE : Option CommData
  forkE : Option ForkData
  deriving Repr, DecidableEq

/-! ## Parsed-event side data -/

/-- `ParsedEvent::DSOAndOffset`.  The C++ stores a pointer to the `DSOInfo`;
the model stores the DSO-table key (`none` models the null pointer of a
default-constructed value). -/
structure DSOAndOffset where
  dsoName : Option String
  offset : Nat
  deriving Repr, DecidableEq

def DSOAndOffset.null : DSOAndOffset := ⟨none, 0⟩

/-- `ParsedEvent::BranchEntry`. -/
structure ParsedBranchEntry where
  fromLoc : DSOAndOffset
  toLoc : DSOAndOffset
  mispredicted : Bool
  predicted : Bool
  in_transaction : Bool
  aborted_transaction : Bool
  cycles : Nat
  deriving Repr, DecidableEq

def ParsedBranchEntry.zero : ParsedBranchEntry :=
  ⟨DSOAndOffset.null, DSOAndOffset.null, false, false, false, false, 0⟩

/-- `ParsedEvent` (perf_parser.h).  `event` models the record pointed to by
`event_ptr` (the model stores it by value and writes updates back by index). -/
structure ParsedEvent where
  event : PerfEvent
  command : Option String
  dso_and_offset : DSOAndOffset
  data_dso_and_offset : DSOAndOffset
  callchain : List DSOAndOffset
  branch_stack : List ParsedBranchEntry
  num_samples_in_mmap_region : Nat
  deriving Repr, DecidableEq

/-- A freshly constructed `ParsedEvent` wrapping a record
(perf_parser.cc:94). -/
def ParsedEvent.fresh (e : PerfEvent) : ParsedEvent :=
  ⟨e, none, DSOAndOffset.null, DSOAndOffset.null, [], [], 0⟩

/-- `DSOInfo` (dso.h): name plus device/inode info, the build id and the
sample-observation data. -/
structure DSOInfo where
  name : String
  maj : Nat
  min : Nat
  ino : Nat
  build_id : String
  hit : Bool
  threads : List Nat
  deriving Repr, DecidableEq

structure PerfEventStats where
  num_mmap_events : Nat
  num_comm_events : Nat
  num_fork_events : Nat
  num_exit_events : Nat
  num_sample_events : Nat
  num_sample_events_mapped : Nat
  num_data_sample_events : Nat
  num_data_sample_events_mapped : Nat
  did_remap : Bool
  deriving Repr, DecidableEq

/-- `stats_ = {0}` (perf_parser.cc:148). -/
def PerfEventStats.zero : PerfEventStats := ⟨0, 0, 0, 0, 0, 0, 0, 0, false⟩

/-- The `PerfParserOptions` fields consulted by the modelled code.  The
threshold is stored as a `float` in the C++; its value is modelled as a
nonnegative rational given by a numerator/denominator pair, and is rounded to
single precision where the code reads it into a `float` local. -/
structure PerfParserOptions where
  do_remap : Bool
  discard_unused_events : Bool
  sample_mapping_percentage_threshold : Nat × Nat
  allow_unaligned_jit_mappings : Bool
  deriving Repr, DecidableEq

/-! ## Association lists (std::map / std::unordered_map models) -/

def lookupA {α β : Type} [DecidableEq α] (k : α) : List (α × β) → Option β
  | [] => none
  | (k', v) :: rest => if k' = k then some v else lookupA k rest

/-- `map[k] = v`: overwrite the existing binding or append a new one. -/
def storeA {α β : Type} [DecidableEq α] (k : α) (v : β) : List (α × β) → List (α × β)
  | [] => [(k, v)]
  | (k', v') :: rest => if k' = k then (k, v) :: rest else (k', v') :: storeA k v rest

/-- `map.emplace(k, v)`: insert only when the key is absent. -/
def emplaceA {α β : Type} [DecidableEq α] (k : α) (v : β) (l : List (α × β)) : List (α × β) :=
  if (lookupA k l).isSome then l else l ++ [(k, v)]

/-- `set.insert`: insert only when absent. -/
def insertS {α : Type} [DecidableEq α] (x : α) (l : List α) : List α :=
  if x ∈ l then l else l ++ [x]

/-! ## AddressMapper, modelled from the spec

`address_mapper.h`/`.cc` are not among the sources.  Spec section 3: a mapper
is an ordered sequence of disjoint `[start, limit)` intervals, each tagged
with a `page_offset` and the stable event id of the MMAP that created it, plus
a page-alignment constant; the synthetic start of an interval is the
cumulative sum of the lengths of all preceding intervals.  Section 4.A gives
the operations. -/

structure AMapping where
  start : Nat
  limit : Nat
  pgoff : Nat
  id : Nat
  isJit : Bool
  deriving Repr, DecidableEq

structure AddressMapper where
  mappings : List AMapping
  page_alignment : Nat
  deriving Repr, DecidableEq

/-- Walk the ordered interval list accumulating the synthetic start. -/
def findMappingAux (addr : Nat) : List AMapping → Nat → Option (Nat × AMapping)
  | [], _ => none
  | m :: rest, synth =>
    if m.start ≤ addr ∧ addr < m.limit then some (synth + (addr - m.start), m)
    else findMappingAux addr rest (synth + (m.limit - m.start))

/-- Modelled from the spec (4.A): `get_mapped_address_and_iterator(addr)`
finds the interval containing `addr` and returns
`synthetic_start + (addr - start)` together with the interval. -/
def AddressMapper.getMappedAddressAndListIterator (am : AddressMapper) (addr : Nat) :
    Option (Nat × AMapping) :=
  findMappingAux addr am.mappings 0

/-- Modelled from the spec (4.A): `get_mapped_id_and_offset` yields the
creating event id and `page_offset + (addr - start)`. -/
def AddressMapper.getMappedIDAndOffset (addr : Nat) (m : AMapping) : Nat × Nat :=
  (m.id, m.pgoff + (addr - m.start))

/-- Remove or truncate the portions of existing intervals that overlap
`[s, e)` (spec 4.A: fully covered intervals are removed, partially covered
ones are truncated with `page_offset` adjusted by the truncation amount, a
straddled interval is split in two). -/
def removeOverlap (s e : Nat) : List AMapping → List AMapping
  | [] => []
  | m :: rest =>
    if m.limit ≤ s ∨ e ≤ m.start then m :: removeOverlap s e rest
    else
      (if m.start < s then [⟨m.start, s, m.pgoff, m.id, m.isJit⟩] else []) ++
      (if e < m.limit then [⟨e, m.limit, m.pgoff + (e - m.start), m.id, m.isJit⟩] else []) ++
      removeOverlap s e rest

/-- Insert keeping the list ordered by `start`. -/
def insertSorted (nm : AMapping) : List AMapping → List AMapping
  | [] => [nm]
  | m :: rest => if nm.start ≤ m.start then nm :: m :: rest else m :: insertSorted nm rest

/-- Modelled from the spec (4.A): `map_with_id`.  A zero-length insertion is
rejected; when the new interval is entirely contained in an existing one and
`remove_old_mappings` is false the call succeeds as a no-op (the parser always
passes true); otherwise overlapping intervals are removed or truncated and the
new interval inserted.  The "unaligned interval" failure mentioned by 4.A is
realized by the page-alignment checks of perf_parser.cc itself (lines 654 and
734), which are modelled in the parser functions below. -/
def AddressMapper.mapWithID (am : AddressMapper) (start len id pgoff : Nat)
    (removeOld isJit : Bool) : Option AddressMapper :=
  if len = 0 then none
  else if ¬removeOld ∧ am.mappings.any (fun m =>
      decide (m.start ≤ start) && decide (add64 start len ≤ m.limit)) then
    some am
  else
    let nm : AMapping := ⟨start, add64 start len, pgoff, id, isJit⟩
    some { am with mappings := insertSorted nm (removeOverlap start (add64 start len) am.mappings) }

/-! ## Floating-point model for the mapping-percentage check

perf_parser.cc:298 computes
`float p = static_cast<float>(mapped) / num * 100.;` — the division happens in
single precision, the multiplication by the double literal `100.` in double
precision, and the result is stored back into a `float`.  The values appearing
here are far inside the normal range of both formats, so round-to-nearest,
ties-to-even onto a fixed-width significand models the arithmetic exactly. -/

/-- Fuel-bounded floor-log2 (the fuel bounds the number of halvings; 128
covers every value appearing in the percentage computation). -/
def floorLog2Aux : Nat → Nat → Nat
  | 0, _ => 0
  | fuel + 1, n => if 2 ≤ n then floorLog2Aux fuel (n / 2) + 1 else 0

/-- `⌊log2 n⌋` for `0 < n < 2^128`. -/
def floorLog2 (n : Nat) : Nat := floorLog2Aux 128 n

/-- Nonnegative rationals are carried as unreduced numerator/denominator
pairs, so that the whole computation stays within kernel-computable `Nat`
arithmetic. -/
abbrev Frac := Nat × Nat

/-- `⌊log2 (s/d)⌋` for positive naturals `s`, `d`. -/
def qlog2floor (s d : Nat) : Int :=
  if d ≤ s then (floorLog2 (s / d) : Int)
  else
    let L := floorLog2 (d / s)
    if d ≤ s * 2 ^ L then -(L : Int) else -(L : Int) - 1

/-- Round a nonnegative fraction to the nearest value of the form `n * 2^e`
with `n < 2^prec` (round to nearest, ties to even), returned as a fraction
whose denominator is a power of two.  Overflow and subnormals are not
modelled; see the section comment. -/
def roundNE (prec : Nat) (f : Frac) : Frac :=
  if f.1 = 0 then (0, 1)
  else
    let e : Int := qlog2floor f.1 f.2 - (prec : Int) + 1
    let ns := f.1 * 2 ^ Int.toNat (-e)
    let nd := f.2 * 2 ^ Int.toNat e
    let n := if nd < 2 * (ns % nd) then ns / nd + 1
             else if 2 * (ns % nd) < nd then ns / nd
             else if ns / nd % 2 = 0 then ns / nd else ns / nd + 1
    if 0 ≤ e then (n * 2 ^ Int.toNat e, 1) else (n, 2 ^ Int.toNat (-e))

/-- Round to IEEE single precision (24-bit significand). -/
def roundF (f : Frac) : Frac := roundNE 24 f

/-- Round to IEEE double precision (53-bit significand). -/
def roundD (f : Frac) : Frac := roundNE 53 f

/-- Strict comparison of nonnegative fractions (positive denominators). -/
def fracLt (a b : Frac) : Bool := a.1 * b.2 < b.1 * a.2

/-- The rational value of a fraction. -/
def fracVal (a : Frac) : ℚ := (a.1 : ℚ) / (a.2 : ℚ)

/-- The value of `sample_mapping_percentage` computed at perf_parser.cc:298:
`static_cast<float>(mapped) / num * 100.` — the division of the two converted
operands happens in single precision, the multiplication by the double
literal `100.` in double precision, and the result is stored into a `float`
variable. -/
def samplePercentF (mapped num : Nat) : Frac :=
  let fm := roundF (mapped, 1)
  let fn := roundF (num, 1)
  let q := roundF (fm.1 * fn.2, fm.2 * fn.1)
  let d := roundD (q.1 * 100, q.2)
  roundF d

/-- perf_parser.cc:286-307: the end-of-parse sample statistics checks.
Returns `true` when parsing passes them.  Note that when
`num_sample_events == 0` the source returns `false` on both sides of the
`event_types_to_skip_when_serializing` test (the branches differ only in the
log level), so `skip_sample` does not influence the outcome. -/
def sampleStatsPass (skip_sample : Bool) (mapped num : Nat) (threshold : Frac) : Bool :=
  let _ := skip_sample
  if num = 0 then false
  else if fracLt (samplePercentF mapped num) (roundF threshold) then false
  else true

/-! ## Parser state -/

/-- The mutable per-parse state of `PerfParser`: the parsed-events vector, the
pid → AddressMapper table, the command set, the (pid,tid) → command map, the
DSO table and the statistics. -/
structure ParserState where
  parsed_events : List ParsedEvent
  process_mappers : List (Nat × AddressMapper)
  commands : List String
  pidtid_to_comm_map : List ((Nat × Nat) × String)
  name_to_dso : List (String × DSOInfo)
  stats : PerfEventStats
  deriving Repr, DecidableEq

/-- Update the parsed event at index `i` (a no-op out of range, which the
processing loop never hits). -/
def setPE (st : ParserState) (i : Nat) (f : ParsedEvent → ParsedEvent) : ParserState :=
  match st.parsed_events[i]? with
  | some pe => { st with parsed_events := st.parsed_events.set i (f pe) }
  | none => st

/-- Update the sample payload of the record at index `i`. -/
def setSampleF (st : ParserState) (i : Nat) (f : SampleData → SampleData) : ParserState :=
  setPE st i (fun pe => { pe with event := { pe.event with sample := pe.event.sample.map f } })

/-- Read the (current) sample payload of the record at index `i`. -/
def getSampleF (st : ParserState) (i : Nat) : Option SampleData :=
  (st.parsed_events[i]?).bind (fun pe => pe.event.sample)

/-- perf_parser.cc:775, `GetOrCreateProcessMapper`.  Returns the mapper, the
"newly created" flag, and the updated table.  The single-argument call sites
use the default parent pid 0 from the declaration in perf_parser.h (not among
the sources; modelled from the spec, section 4.D: a process without a mapper
inherits the parent's, else the kernel mapper, else gets a fresh one with the
configured page alignment).  Cloning the parent is a deep copy; values are
immutable here, so the copy is the value itself. -/
def getOrCreateProcessMapper (tbl : List (Nat × AddressMapper)) (pid ppid : Nat) :
    (AddressMapper × Bool) × List (Nat × AddressMapper) :=
  match lookupA pid tbl with
  | some m => ((m, false), tbl)
  | none =>
    let parent : Option AddressMapper :=
      match lookupA ppid tbl with
      | some pm => some pm
      | none => lookupA kKernelPid tbl
    let mapper : AddressMapper :=
      match parent with
      | some pm => pm
      | none => { mappings := [], page_alignment := kMmapPageAlignment }
    ((mapper, true), storeA pid mapper tbl)

/-- The result of `MapIPAndPidAndGetNameAndOffset`: the boolean return value,
the final value of the `*new_ip` out-parameter (0 when the call never wrote
it), the final value of the `*dso_and_offset` out-parameter, and the updated
state. -/
structure MapIPResult where
  mapped : Bool
  new_ip : Nat
  dso_and_offset : DSOAndOffset
  state : ParserState
  deriving Repr, DecidableEq

/-- perf_parser.cc:618, `MapIPAndPidAndGetNameAndOffset`.  `dso0` is the value
the caller's `dso_and_offset` out-parameter holds on entry.  `none` models a
fatal `CHECK` failure (the id check at line 639 — `CHECK_LE` against the
vector size, with the subsequent indexing out of bounds when `id` equals the
size — or the DSO-table lookup at line 646; the `DCHECK` at line 642 is a
no-op in release builds, and a proto getter on a record without an MMAP
payload yields the default, empty filename). -/
def mapIPAndPidAndGetNameAndOffset (opts : PerfParserOptions) (st0 : ParserState)
    (ip pid tid : Nat) (dso0 : DSOAndOffset) : Option MapIPResult :=
  let gm := getOrCreateProcessMapper st0.process_mappers pid 0
  let mapper := gm.1.1
  let st := { st0 with process_mappers := gm.2 }
  match mapper.getMappedAddressAndListIterator ip with
  | none => some ⟨false, 0, dso0, st⟩
  | some (mapped_addr, it) =>
    let io := AddressMapper.getMappedIDAndOffset ip it
    let dso1 : DSOAndOffset := { dso0 with offset := io.2 }
    if hid : io.1 < st.parsed_events.length then
      let pe := st.parsed_events.get ⟨io.1, hid⟩
      let filename := (pe.event.mmap.map (fun m => m.filename)).getD ""
      match lookupA filename st.name_to_dso with
      | none => none
      | some dso =>
        let dso2 : DSOAndOffset := { dso1 with dsoName := some dso.name }
        let dsoU : DSOInfo :=
          { dso with hit := true, threads := insertS (mergeTwoU32 pid tid) dso.threads }
        let pe' := { pe with num_samples_in_mmap_region := pe.num_samples_in_mmap_region + 1 }
        let st' :=
          { st with name_to_dso := storeA filename dsoU st.name_to_dso,
                    parsed_events := st.parsed_events.set io.1 pe' }
        if opts.do_remap then
          if GetPageAlignedOffset mapped_addr ≠ GetPageAlignedOffset ip then
            some ⟨false, 0, dso2, st'⟩
          else
            some ⟨true, mapped_addr, dso2, st'⟩
        else
          some ⟨true, ip, dso2, st'⟩
    else none

/-! ## Call-chain mapping -/

/-- The entry loop of `MapCallchain` (perf_parser.cc:518-552).  Returns
`(mapping_ok, rewritten chain, resolved DSOAndOffset slots, state)`.  The C++
resizes `parsed_event->callchain` to the full chain length up front, writes a
slot per *attempted* entry (the index `num_entries_mapped` is incremented
whether or not the lookup succeeds, perf_parser.cc:532), and finally trims the
vector to `num_entries_mapped`; accumulating one slot per attempted entry is
equivalent. -/
def mapCallchainEntries (opts : PerfParserOptions) (pid tid ip originalAddr : Nat) :
    List Nat → Bool → ParserState → Option (Bool × List Nat × List DSOAndOffset × ParserState)
  | [], ok, st => some (ok, [], [], st)
  | entry :: rest, ok, st =>
    if entry ≥ PERF_CONTEXT_MAX then
      match mapCallchainEntries opts pid tid ip originalAddr rest ok st with
      | none => none
      | some (ok', ch, res, st') => some (ok', entry :: ch, res, st')
    else if entry = originalAddr then
      match mapCallchainEntries opts pid tid ip originalAddr rest ok st with
      | none => none
      | some (ok', ch, res, st') => some (ok', ip :: ch, res, st')
    else
      match mapIPAndPidAndGetNameAndOffset opts st entry pid tid DSOAndOffset.null with
      | none => none
      | some r =>
        let newEntry := if r.mapped then r.new_ip else entry ||| 2 ^ 63
        match mapCallchainEntries opts pid tid ip originalAddr rest (ok && r.mapped) r.state with
        | none => none
        | some (ok', ch, res, st') => some (ok', newEntry :: ch, r.dso_and_offset :: res, st')

/-- perf_parser.cc:502, `MapCallchain`.  (The null-pointer check cannot fire
for a proto repeated field; an empty chain returns success without touching
the parsed event.) -/
def mapCallchain (opts : PerfParserOptions) (st : ParserState)
    (ip pid tid originalAddr : Nat) (callchain : List Nat) :
    Option (Bool × List Nat × List DSOAndOffset × ParserState) :=
  if callchain.isEmpty then some (true, callchain, [], st)
  else mapCallchainEntries opts pid tid ip originalAddr callchain true st

/-! ## Branch-stack mapping -/

/-- perf_parser.cc:51, `IsNullBranchStackEntry`. -/
def isNullBranchStackEntry (e : BranchStackEntryData) : Bool :=
  e.from_ip == 0 && e.to_ip == 0

/-- The `trimmed_size` computation (perf_parser.cc:569-574): the number of
entries before the first all-zero entry. -/
def countLeadingNonNull : List BranchStackEntryData → Nat
  | [] => 0
  | e :: rest => if isNullBranchStackEntry e then 0 else countLeadingNonNull rest + 1

/-- The mapping loop of `MapBranchStack` (perf_parser.cc:589-613) over the
trimmed prefix.  On a failed lookup the C++ returns false immediately; at that
point earlier entries are already rewritten and the remaining resized
`parsed_event->branch_stack` slots still hold default values. -/
def mapBranchEntriesAux (opts : PerfParserOptions) (pid tid : Nat) :
    List BranchStackEntryData → ParserState →
    Option (Bool × List BranchStackEntryData × List ParsedBranchEntry × ParserState)
  | [], st => some (true, [], [], st)
  | e :: rest, st =>
    match mapIPAndPidAndGetNameAndOffset opts st e.from_ip pid tid DSOAndOffset.null with
    | none => none
    | some rf =>
      if rf.mapped then
        let e1 := { e with from_ip := rf.new_ip }
        match mapIPAndPidAndGetNameAndOffset opts rf.state e.to_ip pid tid DSOAndOffset.null with
        | none => none
        | some rt =>
          if rt.mapped then
            let e2 := { e1 with to_ip := rt.new_ip }
            let pb : ParsedBranchEntry := ⟨rf.dso_and_offset, rt.dso_and_offset,
              e.mispredicted, e.predicted, e.in_transaction, e.abortTx, e.cycles⟩
            match mapBranchEntriesAux opts pid tid rest rt.state with
            | none => none
            | some (ok, stack', parsed', st') => some (ok, e2 :: stack', pb :: parsed', st')
          else
            let pb : ParsedBranchEntry :=
              ⟨rf.dso_and_offset, rt.dso_and_offset, false, false, false, false, 0⟩
            some (false, e1 :: rest, pb :: rest.map (fun _ => ParsedBranchEntry.zero), rt.state)
      else
        let pb : ParsedBranchEntry :=
          ⟨rf.dso_and_offset, DSOAndOffset.null, false, false, false, false, 0⟩
        some (false, e :: rest, pb :: rest.map (fun _ => ParsedBranchEntry.zero), rf.state)

/-- perf_parser.cc:560, `MapBranchStack`.  Returns
`(result, rewritten stack, parsed entries, state)`.  If a non-null entry
follows a null one (the check at lines 578-586) the function fails before the
parsed branch stack is resized. -/
def mapBranchStack (opts : PerfParserOptions) (st : ParserState) (pid tid : Nat)
    (stack : List BranchStackEntryData) :
    Option (Bool × List BranchStackEntryData × List ParsedBranchEntry × ParserState) :=
  let trimmed := countLeadingNonNull stack
  if (stack.drop trimmed).all isNullBranchStackEntry then
    match mapBranchEntriesAux opts pid tid (stack.take trimmed) st with
    | none => none
    | some (ok, stack', parsed', st') => some (ok, stack' ++ stack.drop trimmed, parsed', st')
  else some (false, stack, [], st)

/-! ## Sample mapping (`MapSampleEvent`, perf_parser.cc:449) -/

/-- perf_parser.cc:474-483: the `sample.addr` mapping step.  Returns the
result of the data-address mapping (`none` when no mapping was attempted) and
the updated state; the outer `none` is a fatal `CHECK`. -/
def sampleAddrStep (opts : PerfParserOptions) (st : ParserState) (i : Nat) (s : SampleData) :
    Option (Option Bool × ParserState) :=
  if s.hasAddr ∧ s.addr ≠ 0 then
    let stA := { st with stats :=
      { st.stats with num_data_sample_events := st.stats.num_data_sample_events + 1 } }
    let d0 := ((stA.parsed_events[i]?).map (fun pe => pe.data_dso_and_offset)).getD DSOAndOffset.null
    match mapIPAndPidAndGetNameAndOffset opts stA s.addr s.pid s.tid d0 with
    | none => none
    | some r2 =>
      let stB := setPE r2.state i (fun pe => { pe with data_dso_and_offset := r2.dso_and_offset })
      if r2.mapped then
        let stC := { stB with stats := { stB.stats with
          num_data_sample_events_mapped := stB.stats.num_data_sample_events_mapped + 1 } }
        some (some true, setSampleF stC i (fun sm => { sm with addr := r2.new_ip }))
      else some (some false, stB)
  else some (none, st)

/-- perf_parser.cc:485-489: the call-chain step.  `MapCallchain` is invoked
only when the chain is non-empty; its first argument is the current (possibly
already remapped) `sample_info.ip()`. -/
def sampleChainStep (opts : PerfParserOptions) (st : ParserState) (i : Nat) (s : SampleData)
    (unmapped_event_ip : Nat) : Option (Option Bool × ParserState) :=
  if s.callchain.length ≠ 0 then
    let curIp := ((getSampleF st i).map (fun sm => sm.ip)).getD 0
    match mapCallchain opts st curIp s.pid s.tid unmapped_event_ip s.callchain with
    | none => none
    | some (ok, chain', resolved, st') =>
      let st1 := setSampleF st' i (fun sm => { sm with callchain := chain' })
      some (some ok, setPE st1 i (fun pe => { pe with callchain := resolved }))
  else some (none, st)

/-- perf_parser.cc:491-495: the branch-stack step. -/
def sampleBranchStep (opts : PerfParserOptions) (st : ParserState) (i : Nat) (s : SampleData) :
    Option (Option Bool × ParserState) :=
  if s.branchStack.length ≠ 0 then
    match mapBranchStack opts st s.pid s.tid s.branchStack with
    | none => none
    | some (ok, stack', parsed', st') =>
      let st1 := setSampleF st' i (fun sm => { sm with branchStack := stack' })
      some (some ok, setPE st1 i (fun pe => { pe with branch_stack := parsed' }))
  else some (none, st)

/-- The observable outcome of `MapSampleEvent`: the results of the ip, addr,
call-chain and branch-stack sub-mappings produced by the source's own calls
(`none` when the corresponding mapping was not attempted), plus the final
state.  The C++ function is void; the extra fields only expose its locals. -/
structure SampleMapOutcome where
  ipOk : Bool
  addrOk : Option Bool
  chainOk : Option Bool
  branchOk : Option Bool
  state : ParserState
  deriving Repr, DecidableEq

/-- perf_parser.cc:455-472: resolve the command from (pid,tid), map the
sample's own ip, write the resolved DSO+offset back, and on success rewrite
`sample.ip` to the (possibly remapped) address.  Returns the result of the ip
mapping and the updated state; `none` is a fatal `CHECK`. -/
def sampleIpStep (opts : PerfParserOptions) (st0 : ParserState) (i : Nat) (s : SampleData) :
    Option (Bool × ParserState) :=
  let st1 :=
    match lookupA (s.pid, s.tid) st0.pidtid_to_comm_map with
    | some c => setPE st0 i (fun pe => { pe with command := some c })
    | none => st0
  let d0 := ((st1.parsed_events[i]?).map (fun pe => pe.dso_and_offset)).getD DSOAndOffset.null
  match mapIPAndPidAndGetNameAndOffset opts st1 s.ip s.pid s.tid d0 with
  | none => none
  | some r1 =>
    let st2 := setPE r1.state i (fun pe => { pe with dso_and_offset := r1.dso_and_offset })
    some (r1.mapped,
      if r1.mapped then setSampleF st2 i (fun sm => { sm with ip := r1.new_ip }) else st2)

/-- perf_parser.cc:449, `MapSampleEvent`.  On a record without a sample
payload the function returns immediately (line 451); the outcome flags are
then vacuous (`ipOk` defaults to true and no mapping was attempted).  `none`
models a fatal `CHECK` inside address mapping.  The call-chain step receives
`unmapped_event_ip = s.ip`, the value of `sample_info.ip()` captured before
the rewrite. -/
def mapSampleEvent (opts : PerfParserOptions) (st0 : ParserState) (i : Nat) :
    Option SampleMapOutcome :=
  match (st0.parsed_events[i]?).bind (fun pe => pe.event.sample) with
  | none => some ⟨true, none, none, none, st0⟩
  | some s =>
    match sampleIpStep opts st0 i s with
    | none => none
    | some (ipOk, st3) =>
      match sampleAddrStep opts st3 i s with
      | none => none
      | some (addrOk, st4) =>
        match sampleChainStep opts st4 i s s.ip with
        | none => none
        | some (chainOk, st5) =>
          match sampleBranchStep opts st5 i s with
          | none => none
          | some (branchOk, st6) =>
            if ipOk && chainOk.getD true && branchOk.getD true then
              some ⟨ipOk, addrOk, chainOk, branchOk,
                { st6 with stats := { st6.stats with
                  num_sample_events_mapped := st6.stats.num_sample_events_mapped + 1 } }⟩
            else some ⟨ipOk, addrOk, chainOk, branchOk, st6⟩

/-! ## MMAP, COMM and FORK handling -/

/-- `filename.find("jitted-") != std::string::npos` (perf_parser.cc:719). -/
def hasJitInName (filename : String) : Bool := (filename.splitOn "jitted-").length ≥ 2

/-- The local `start`/`len`/`pgoff` of `MapMmapEvent` after the kernel
normalization (perf_parser.cc:703-716): when `is_kernel` and `pgoff` lies
strictly between `start` and `start + len` (64-bit arithmetic), `len` becomes
`len + start - pgoff` and `start` becomes `pgoff`; in every `is_kernel` case
`pgoff` becomes 0. -/
def mmapLocalFields (ev : MMapData) (is_kernel : Bool) : Nat × Nat × Nat :=
  if is_kernel then
    if ev.pgoff > ev.start ∧ ev.pgoff < add64 ev.start ev.len then
      (ev.pgoff, sub64 (add64 ev.len ev.start) ev.pgoff, 0)
    else (ev.start, ev.len, 0)
  else (ev.start, ev.len, ev.pgoff)

/-- perf_parser.cc:668, `MapMmapEvent`.  Returns the (possibly rewritten)
MMAP payload and the updated state; `none` is a failure (a fatal `CHECK` at
the call site, perf_parser.cc:200).  The kernel normalization (lines 703-716)
and the remap rewriting (lines 726-744) work on 64-bit locals. -/
def mapMmapEvent (opts : PerfParserOptions) (st0 : ParserState) (ev : MMapData)
    (id : Nat) (is_kernel : Bool) : Option (MMapData × ParserState) :=
  let gm := getOrCreateProcessMapper st0.process_mappers ev.pid 0
  let mapper := gm.1.1
  let st := { st0 with process_mappers := gm.2 }
  let norm := mmapLocalFields ev is_kernel
  let start := norm.1
  let len := norm.2.1
  let pgoff := norm.2.2
  let is_jit_event := opts.allow_unaligned_jit_mappings && hasJitInName ev.filename
  match mapper.mapWithID start len id pgoff true is_jit_event with
  | none => none
  | some mapper' =>
    let st' := { st with process_mappers := storeA ev.pid mapper' st.process_mappers }
    if opts.do_remap then
      match mapper'.getMappedAddressAndListIterator start with
      | none => none
      | some (mapped_addr, _) =>
        if GetPageAlignedOffset mapped_addr ≠ GetPageAlignedOffset start then none
        else some ({ ev with start := mapped_addr, len := len, pgoff := pgoff }, st')
    else some (ev, st')

/-- perf_parser.cc:748, `MapCommEvent` (always returns true). -/
def mapCommEvent (st : ParserState) (pid : Nat) : ParserState :=
  { st with process_mappers := (getOrCreateProcessMapper st.process_mappers pid 0).2 }

/-- The command-inheritance half of `MapForkEvent` (perf_parser.cc:754-760):
when (ppid,ptid) and (pid,tid) differ and the parent has a command, the child
inherits it. -/
def forkInheritComm (st0 : ParserState) (ev : ForkData) : ParserState :=
  if (ev.ppid, ev.ptid) ≠ (ev.pid, ev.tid) then
    match lookupA (ev.ppid, ev.ptid) st0.pidtid_to_comm_map with
    | some c => { st0 with pidtid_to_comm_map := storeA (ev.pid, ev.tid) c st0.pidtid_to_comm_map }
    | none => st0
  else st0

/-- perf_parser.cc:753, `MapForkEvent` (always returns true). -/
def mapForkEvent (st0 : ParserState) (ev : ForkData) : ParserState :=
  let st := forkInheritComm st0 ev
  if ev.ppid = ev.pid then st
  else { st with process_mappers := (getOrCreateProcessMapper st.process_mappers ev.pid ev.ppid).2 }

/-! ## The event-processing loop (`ProcessEvents`, perf_parser.cc:147) -/

/-- Outcome of processing one record: a fatal `CHECK` failure (process
abort), the `return false` path, or the next state together with the
`first_kernel_mmap` latch. -/
inductive StepOutcome where
  | fatal : StepOutcome
  | failParse : ParserState → StepOutcome
  | next : ParserState → Bool → StepOutcome
  deriving Repr, DecidableEq

/-- One iteration of the loop at perf_parser.cc:169-269 for the record at
index `i`.  `ProcessUserEvents` always returns true, so user-type records
(type ≥ `PERF_RECORD_USER_TYPE_START`) are no-ops; an unknown type below that
range returns false from `ProcessEvents`.  A record typed MMAP/MMAP2 without
an MMAP payload gets a default payload from `mutable_mmap_event()` (its zero
length then fails `MapWithID`, a fatal `CHECK`). -/
def processOneEvent (opts : PerfParserOptions) (st : ParserState) (i : Nat)
    (first_kernel_mmap : Bool) : StepOutcome :=
  match st.parsed_events[i]? with
  | none => .next st first_kernel_mmap
  | some pe =>
    let ev := pe.event
    if ev.etype ≥ PERF_RECORD_USER_TYPE_START then .next st first_kernel_mmap
    else if ev.etype = PERF_RECORD_SAMPLE then
      let stS := { st with stats :=
        { st.stats with num_sample_events := st.stats.num_sample_events + 1 } }
      match mapSampleEvent opts stS i with
      | none => .fatal
      | some r => .next r.state first_kernel_mmap
    else if ev.etype = PERF_RECORD_MMAP ∨ ev.etype = PERF_RECORD_MMAP2 then
      let stM := { st with stats :=
        { st.stats with num_mmap_events := st.stats.num_mmap_events + 1 } }
      let is_kernel := first_kernel_mmap &&
        (ev.misc &&& PERF_RECORD_MISC_CPUMODE_MASK) == PERF_RECORD_MISC_KERNEL
      let md := ev.mmap.getD MMapData.zero
      match mapMmapEvent opts stM md i is_kernel with
      | none => .fatal
      | some (md', stM') =>
        let stW := setPE stM' i (fun pe => { pe with
          event := { pe.event with mmap := some md' }, num_samples_in_mmap_region := 0 })
        let dsoInfo : DSOInfo :=
          if ev.etype = PERF_RECORD_MMAP2 then
            ⟨md'.filename, md'.maj, md'.min, md'.ino, "", false, []⟩
          else ⟨md'.filename, 0, 0, 0, "", false, []⟩
        let stD := { stW with name_to_dso := emplaceA md'.filename dsoInfo stW.name_to_dso }
        .next stD (if is_kernel then false else first_kernel_mmap)
    else if ev.etype = PERF_RECORD_FORK then
      let stF := { st with stats :=
        { st.stats with num_fork_events := st.stats.num_fork_events + 1 } }
      .next (mapForkEvent stF (ev.forkE.getD ForkData.zero)) first_kernel_mmap
    else if ev.etype = PERF_RECORD_EXIT then
      .next { st with stats :=
        { st.stats with num_exit_events := st.stats.num_exit_events + 1 } } first_kernel_mmap
    else if ev.etype = PERF_RECORD_COMM then
      let cd := ev.commE.getD CommData.zero
      let stC := { st with stats :=
        { st.stats with num_comm_events := st.stats.num_comm_events + 1 } }
      let stC1 := mapCommEvent stC cd.pid
      .next { stC1 with commands := insertS cd.comm stC1.commands,
                        pidtid_to_comm_map := storeA (cd.pid, cd.tid) cd.comm
                          stC1.pidtid_to_comm_map } first_kernel_mmap
    else if ev.etype = PERF_RECORD_LOST ∨ ev.etype = PERF_RECORD_THROTTLE ∨
        ev.etype = PERF_RECORD_UNTHROTTLE ∨ ev.etype = PERF_RECORD_AUX ∨
        ev.etype = PERF_RECORD_ITRACE_START ∨ ev.etype = PERF_RECORD_LOST_SAMPLES ∨
        ev.etype = PERF_RECORD_SWITCH ∨ ev.etype = PERF_RECORD_SWITCH_CPU_WIDE ∨
        ev.etype = PERF_RECORD_NAMESPACES ∨ ev.etype = PERF_RECORD_CGROUP then
      .next st first_kernel_mmap
    else .failParse st

/-- The loop over the record indices. -/
def processLoop (opts : PerfParserOptions) : List Nat → ParserState → Bool → StepOutcome
  | [], st, fkm => .next st fkm
  | i :: rest, st, fkm =>
    match processOneEvent opts st i fkm with
    | .fatal => .fatal
    | .failParse st' => .failParse st'
    | .next st' fkm' => processLoop opts rest st' fkm'

/-- perf_parser.cc:407, `FillInDsoBuildIds`.  The first layer copies the
reader-supplied filename → build-id map over the DSO table.  The second layer
(`FindDsoBuildId`) reads the filesystem, which the spec places out of scope
(the external DSO probe); with no filesystem it yields no new build ids, so
the function returns true and injects nothing. -/
def fillInDsoBuildIds (reader_build_ids : List (String × String)) (st : ParserState) :
    ParserState :=
  { st with name_to_dso := st.name_to_dso.map (fun kv =>
      match lookupA kv.1 reader_build_ids with
      | some b => (kv.1, { kv.2 with build_id := b })
      | none => kv) }

/-- perf_parser.cc:147, `ProcessEvents`.  `skip_sample` models whether
`PERF_RECORD_SAMPLE` is in `reader_->event_types_to_skip_when_serializing()`;
`reader_build_ids` models `reader_->GetFilenamesToBuildIDs()`.  Returns `none`
on a fatal `CHECK`, otherwise the boolean result and the final state. -/
def processEvents (opts : PerfParserOptions) (skip_sample : Bool)
    (reader_build_ids : List (String × String)) (st0 : ParserState) :
    Option (Bool × ParserState) :=
  let st1 :=
    { st0 with
      stats := PerfEventStats.zero
      commands := insertS kSwapperCommandName st0.commands
      pidtid_to_comm_map :=
        storeA (kSwapperPid, kSwapperPid) kSwapperCommandName st0.pidtid_to_comm_map }
  match processLoop opts (List.range st1.parsed_events.length) st1 true with
  | .fatal => none
  | .failParse st' => some (false, st')
  | .next stL _ =>
    let st2 := fillInDsoBuildIds reader_build_ids stL
    if sampleStatsPass skip_sample st2.stats.num_sample_events_mapped
        st2.stats.num_sample_events opts.sample_mapping_percentage_threshold then
      some (true, { st2 with stats := { st2.stats with did_remap := opts.do_remap } })
    else some (false, st2)

/-- perf_parser.cc:89-97: the parsed-events vector is built from the reader's
records with `PERF_RECORD_FINISHED_ROUND` records filtered out. -/
def mkParsedEvents (events : List PerfEvent) : List ParsedEvent :=
  (events.filter (fun e => e.etype ≠ PERF_RECORD_FINISHED_ROUND)).map ParsedEvent.fresh

/-- The state of a freshly constructed parser about to process `events`
(`process_mappers_` and `parsed_events_` cleared by `ParseRawEvents`, the
other tables empty on a fresh object). -/
def initialState (events : List PerfEvent) : ParserState :=
  ⟨mkParsedEvents events, [], [], [], [], PerfEventStats.zero⟩

/-! ## Helper lemmas -/

theorem lookupA_storeA_self {α β : Type} [DecidableEq α] (k : α) (v : β) (l : List (α × β)) :
    lookupA k (storeA k v l) = some v := by
  induction l with
  | nil => simp [storeA, lookupA]
  | cons hd tl ih =>
    obtain ⟨k', v'⟩ := hd
    by_cases h : k' = k
    · simp [storeA, lookupA, h]
    · simp [storeA, lookupA, h, ih]

theorem mem_insertSorted_self (nm : AMapping) (l : List AMapping) :
    nm ∈ insertSorted nm l := by
  induction l with
  | nil => simp [insertSorted]
  | cons m rest ih =>
    by_cases h : nm.start ≤ m.start
    · simp [insertSorted, h]
    · simp only [insertSorted, if_neg h]
      exact List.mem_cons_of_mem m ih

theorem mem_insertS_self {α : Type} [DecidableEq α] (x : α) (l : List α) :
    x ∈ insertS x l := by
  by_cases h : x ∈ l
  · simp [insertS, h]
  · simp [insertS, h]

theorem forkInheritComm_pm (st : ParserState) (ev : ForkData) :
    (forkInheritComm st ev).process_mappers = st.process_mappers := by
  unfold forkInheritComm
  split
  · split <;> rfl
  · rfl

/-- `MapForkEvent` changes the mapper table exactly through
`GetOrCreateProcessMapper(pid, ppid)`, and only when `ppid ≠ pid`. -/
theorem mapForkEvent_process_mappers (st : ParserState) (ev : ForkData) :
    (mapForkEvent st ev).process_mappers =
      if ev.ppid = ev.pid then st.process_mappers
      else (getOrCreateProcessMapper st.process_mappers ev.pid ev.ppid).2 := by
  by_cases hpp : ev.ppid = ev.pid <;>
    simp [mapForkEvent, hpp, forkInheritComm_pm]

theorem U64_pos : 0 < U64 := Nat.pos_pow_of_pos 64 (by norm_num)

theorem add64_lt (a b : Nat) : add64 a b < U64 := Nat.mod_lt _ U64_pos

theorem add64_comm (a b : Nat) : add64 a b = add64 b a := by
  unfold add64; rw [Nat.add_comm]

theorem sub64_eq_of_lt {a b : Nat} (hb : b < a) (ha : a < U64) : sub64 a b = a - b := by
  unfold sub64
  rw [Nat.mod_eq_of_lt ha, Nat.mod_eq_of_lt (lt_trans hb ha)]
  have h1 : a + U64 - b = a - b + U64 := by omega
  rw [h1, Nat.add_mod_right, Nat.mod_eq_of_lt (lt_of_le_of_lt (Nat.sub_le a b) ha)]

/-! ## C6: FORK mapper creation and inheritance -/

/-- C6: for every FORK event, if `ppid = pid` (a thread within the process)
no mapper is created; otherwise, when no mapper exists for `pid` yet, one is
created as a (deep) copy of the parent `ppid`'s mapper, or, failing that, of
the kernel pid's mapper, or, failing that, as a fresh empty mapper with the
configured page alignment.  An existing mapper for `pid` is left as is. -/
theorem c6_fork_mapper_inheritance (st : ParserState) (ev : ForkData) :
    (ev.ppid = ev.pid → (mapForkEvent st ev).process_mappers = st.process_mappers) ∧
    (ev.ppid ≠ ev.pid → (lookupA ev.pid st.process_mappers).isSome →
      (mapForkEvent st ev).process_mappers = st.process_mappers) ∧
    (∀ pm, ev.ppid ≠ ev.pid → lookupA ev.pid st.process_mappers = none →
      lookupA ev.ppid st.process_mappers = some pm →
      lookupA ev.pid (mapForkEvent st ev).process_mappers = some pm) ∧
    (∀ km, ev.ppid ≠ ev.pid → lookupA ev.pid st.process_mappers = none →
      lookupA ev.ppid st.process_mappers = none →
      lookupA kKernelPid st.process_mappers = some km →
      lookupA ev.pid (mapForkEvent st ev).process_mappers = some km) ∧
    (ev.ppid ≠ ev.pid → lookupA ev.pid st.process_mappers = none →
      lookupA ev.ppid st.process_mappers = none →
      lookupA kKernelPid st.process_mappers = none →
      lookupA ev.pid (mapForkEvent st ev).process_mappers =
        some { mappings := [], page_alignment := kMmapPageAlignment }) := by
  refine ⟨fun h => ?_, fun h hex => ?_, fun pm h hno hpar => ?_,
    fun km h hno hpar hker => ?_, fun h hno hpar hker => ?_⟩
  · rw [mapForkEvent_process_mappers, if_pos h]
  · rw [mapForkEvent_process_mappers, if_neg h]
    obtain ⟨m, hm⟩ := Option.isSome_iff_exists.mp hex
    unfold getOrCreateProcessMapper
    rw [hm]
  · rw [mapForkEvent_process_mappers, if_neg h]
    unfold getOrCreateProcessMapper
    rw [hno, hpar]
    exact lookupA_storeA_self _ _ _
  · rw [mapForkEvent_process_mappers, if_neg h]
    unfold getOrCreateProcessMapper
    rw [hno, hpar, hker]
    exact lookupA_storeA_self _ _ _
  · rw [mapForkEvent_process_mappers, if_neg h]
    unfold getOrCreateProcessMapper
    rw [hno, hpar, hker]
    exact lookupA_storeA_self _ _ _

/-- Concrete instantiation of the C6 theorem: a FORK of pid 4 from parent 3
copies the parent's mapper into the table for pid 4. -/
theorem c6_fork_mapper_inheritance_witness :
    lookupA 4 (mapForkEvent
      ⟨[], [(3, ⟨[⟨4096, 8192, 0, 0, false⟩], 4096⟩)], [], [], [], PerfEventStats.zero⟩
      ⟨4, 4, 3, 3⟩).process_mappers = some ⟨[⟨4096, 8192, 0, 0, false⟩], 4096⟩ :=
  (c6_fork_mapper_inheritance
      ⟨[], [(3, ⟨[⟨4096, 8192, 0, 0, false⟩], 4096⟩)], [], [], [], PerfEventStats.zero⟩
      ⟨4, 4, 3, 3⟩).2.2.1
    ⟨[⟨4096, 8192, 0, 0, false⟩], 4096⟩ (by decide) (by decide) (by decide)

/-! ## C4: kernel MMAP normalization -/

/-- C4: for an MMAP processed with `is_kernel = true`, when `page_offset` lies
strictly inside `[start, start + length)` (64-bit arithmetic) the interval
inserted into the pid's mapper has `start = page_offset` and length
`length + start - page_offset`; and in every `is_kernel` case the inserted
interval carries `page_offset = 0`.  (Remap mode is off in the first part so
that the returned event is the untouched input, as at perf_parser.cc:744.) -/
theorem c4_kernel_mmap_normalization (opts : PerfParserOptions) (st : ParserState)
    (md : MMapData) (i : Nat)
    (hremap : opts.do_remap = false) (hjit : opts.allow_unaligned_jit_mappings = false) :
    (md.pgoff > md.start → md.pgoff < add64 md.start md.len →
      ∃ st' am, mapMmapEvent opts st md i true = some (md, st') ∧
        lookupA md.pid st'.process_mappers = some am ∧
        (⟨md.pgoff, add64 md.pgoff (sub64 (add64 md.len md.start) md.pgoff), 0, i, false⟩ :
          AMapping) ∈ am.mappings) ∧
    (∀ md' st', mapMmapEvent opts st md i true = some (md', st') →
      ∃ am s l, lookupA md.pid st'.process_mappers = some am ∧
        (⟨s, l, 0, i, false⟩ : AMapping) ∈ am.mappings) := by
  constructor
  · intro h1 h2
    have hnorm : mmapLocalFields md true =
        (md.pgoff, sub64 (add64 md.len md.start) md.pgoff, 0) := by
      simp [mmapLocalFields, h1, h2]
    have hL : sub64 (add64 md.len md.start) md.pgoff ≠ 0 := by
      rw [add64_comm md.len md.start, sub64_eq_of_lt h2 (add64_lt _ _)]
      omega
    simp only [mapMmapEvent, hnorm, hjit, hremap, Bool.false_and, AddressMapper.mapWithID,
      if_neg hL, not_true, false_and, if_false, Bool.false_eq_true]
    exact ⟨_, _, rfl, lookupA_storeA_self _ _ _, mem_insertSorted_self _ _⟩
  · intro md' st' hmm
    have hq2 : (mmapLocalFields md true).2.2 = 0 := by
      unfold mmapLocalFields
      split
      · split <;> rfl
      · next h => exact absurd rfl h
    obtain ⟨q, hq0⟩ : ∃ q : Nat × Nat × Nat, mmapLocalFields md true = q := ⟨_, rfl⟩
    rw [hq0] at hq2
    simp only [mapMmapEvent, hq0, hjit, Bool.false_and, AddressMapper.mapWithID,
      not_true, false_and, if_false, Bool.false_eq_true] at hmm
    split at hmm
    · exact absurd hmm (by simp)
    · rename_i mapperV heq
      by_cases hlen : q.2.1 = 0
      · rw [if_pos hlen] at heq; cases heq
      · rw [if_neg hlen] at heq
        have hmv := Option.some.inj heq
        subst hmv
        split at hmm
        · split at hmm
          · exact absurd hmm (by simp)
          · split at hmm
            · exact absurd hmm (by simp)
            · obtain ⟨-, h2⟩ := Prod.mk.inj (Option.some.inj hmm)
              subst h2
              exact ⟨_, q.1, add64 q.1 q.2.1, lookupA_storeA_self _ _ _,
                hq2 ▸ mem_insertSorted_self _ _⟩
        · obtain ⟨-, h2⟩ := Prod.mk.inj (Option.some.inj hmm)
          subst h2
          exact ⟨_, q.1, add64 q.1 q.2.1, lookupA_storeA_self _ _ _,
            hq2 ▸ mem_insertSorted_self _ _⟩

/-- Concrete instantiation of the C4 theorem on the spec's S2 kernel mapping
(`start = 0x3bc00000`, `len = 0xffffffff843fffff`,
`pgoff = 0xffffffffbcc00198`). -/
theorem c4_kernel_mmap_normalization_witness :
    ∃ st' am, mapMmapEvent ⟨false, false, (95, 1), false⟩ (initialState [])
        ⟨0, 0, 0x3bc00000, 0xffffffff843fffff, 0xffffffffbcc00198, 0, 0, 0, "[kernel.kallsyms]"⟩
        0 true =
      some (⟨0, 0, 0x3bc00000, 0xffffffff843fffff, 0xffffffffbcc00198, 0, 0, 0,
        "[kernel.kallsyms]"⟩, st') ∧
      lookupA 0 st'.process_mappers = some am ∧
      (⟨0xffffffffbcc00198,
        add64 0xffffffffbcc00198 (sub64 (add64 0xffffffff843fffff 0x3bc00000) 0xffffffffbcc00198),
        0, 0, false⟩ : AMapping) ∈ am.mappings :=
  (c4_kernel_mmap_normalization ⟨false, false, (95, 1), false⟩ (initialState [])
    ⟨0, 0, 0x3bc00000, 0xffffffff843fffff, 0xffffffffbcc00198, 0, 0, 0, "[kernel.kallsyms]"⟩
    0 rfl rfl).1 (by decide) (by decide)

/-! ## C10: SAMPLE-typed records without a sample payload -/

/-- C10: a record whose header type is `PERF_RECORD_SAMPLE` but which carries
no sample payload increments `num_sample_events` while `MapSampleEvent`
returns immediately: the step leaves the state untouched except for that one
counter, so the record is never counted in `num_sample_events_mapped` and
lowers the mapping-success ratio. -/
theorem c10_sample_record_without_payload (opts : PerfParserOptions) (st : ParserState)
    (i : Nat) (pe : ParsedEvent) (fkm : Bool)
    (hpe : st.parsed_events[i]? = some pe)
    (htype : pe.event.etype = PERF_RECORD_SAMPLE)
    (hnos : pe.event.sample = none) :
    processOneEvent opts st i fkm =
      .next { st with stats := { st.stats with
        num_sample_events := st.stats.num_sample_events + 1 } } fkm := by
  simp [processOneEvent, hpe, htype, PERF_RECORD_SAMPLE, PERF_RECORD_USER_TYPE_START,
    mapSampleEvent, hnos]

/-- Concrete instantiation of the C10 theorem: a payload-free SAMPLE record
bumps only `num_sample_events`. -/
theorem c10_sample_record_without_payload_witness :
    processOneEvent ⟨false, false, (95, 1), false⟩
      (initialState [⟨PERF_RECORD_SAMPLE, 0, none, none, none, none⟩]) 0 true =
      .next { initialState [⟨PERF_RECORD_SAMPLE, 0, none, none, none, none⟩] with
        stats := { (initialState [⟨PERF_RECORD_SAMPLE, 0, none, none, none, none⟩]).stats with
          num_sample_events :=
            (initialState [⟨PERF_RECORD_SAMPLE, 0, none, none, none, none⟩]).stats.num_sample_events
              + 1 } } true :=
  c10_sample_record_without_payload ⟨false, false, (95, 1), false⟩
    (initialState [⟨PERF_RECORD_SAMPLE, 0, none, none, none, none⟩]) 0
    (ParsedEvent.fresh ⟨PERF_RECORD_SAMPLE, 0, none, none, none, none⟩) true
    (by decide) (by decide) (by decide)

/-! ## C2: the zero-sample check ignores the SAMPLE filter -/

/-- C2 (code bug): `ProcessEvents` returns false on an input with zero sample
events even when `PERF_RECORD_SAMPLE` is in the reader's
to-skip-when-serializing set — the source's two branches at
perf_parser.cc:286-296 differ only in the log message and both fall through to
`return false`, although the INFO branch explains the absence as benign. -/
theorem c2_zero_samples_fails_even_when_filtered :
    (processEvents ⟨false, false, (95, 1), false⟩ true [] (initialState [])).map Prod.fst =
      some false := by decide

/-! ## C7: the mapping-percentage threshold check -/

/-- C7 counterexample: with 15938355 of 2^24 samples mapped, the exact
percentage `15938355/16777216 * 100 ≈ 94.9999988` is strictly below the
threshold 95, so the claim says the check fails; but the single-precision
computation of perf_parser.cc:298 rounds to exactly 95.0 and the check
passes. -/
theorem c7_ratio_check_rational_iff_counterexample :
    (15938355 : ℚ) / 16777216 * 100 < 95 ∧
      sampleStatsPass false 15938355 16777216 (95, 1) = true := by
  constructor
  · norm_num
  · decide

/-- C7 amended: with `num_sample_events > 0` the check fails exactly when the
single-precision value `float(float(mapped)/float(num)) * 100.` (stored into a
`float`) is strictly below the `float` threshold.  On the spec's example this
agrees with the rational rule: 80 of 100 mapped fails at threshold 95 and
passes at 75, the float percentage being exactly 80; but the float value of
15938355/2^24 rounds up to exactly 95. -/
theorem c7_ratio_check_is_float_comparison :
    (∀ skip m n t, n ≠ 0 →
      (sampleStatsPass skip m n t = false ↔ fracLt (samplePercentF m n) (roundF t) = true)) ∧
    sampleStatsPass false 80 100 (95, 1) = false ∧
    sampleStatsPass false 80 100 (75, 1) = true ∧
    fracVal (samplePercentF 80 100) = 80 ∧
    fracVal (samplePercentF 15938355 16777216) = 95 := by
  refine ⟨?_, by decide, by decide, ?_, ?_⟩
  · intro skip m n t hn
    unfold sampleStatsPass
    simp only [if_neg hn]
    cases h : fracLt (samplePercentF m n) (roundF t) <;> simp [h]
  · have h : samplePercentF 80 100 = (10485760, 131072) := by decide
    rw [h]; unfold fracVal; norm_num
  · have h : samplePercentF 15938355 16777216 = (12451840, 131072) := by decide
    rw [h]; unfold fracVal; norm_num

/-- Concrete instantiation of the amended C7 theorem at 80 of 100 samples. -/
theorem c7_ratio_check_is_float_comparison_witness :
    sampleStatsPass false 80 100 (95, 1) = false ↔
      fracLt (samplePercentF 80 100) (roundF (95, 1)) = true :=
  c7_ratio_check_is_float_comparison.1 false 80 100 (95, 1) (by decide)

/-! ## C1: call-chain slot accounting -/

/-- The call-chain entry loop produces exactly one resolved slot per entry for
which a mapping was *attempted* — the index into the resolved vector is
post-incremented at perf_parser.cc:532 whether or not the lookup succeeds. -/
theorem mapCallchainEntries_resolved_length (opts : PerfParserOptions) (pid tid ip orig : Nat) :
    ∀ (chain : List Nat) (ok : Bool) (st : ParserState)
      (r : Bool × List Nat × List DSOAndOffset × ParserState),
      mapCallchainEntries opts pid tid ip orig chain ok st = some r →
      r.2.2.1.length =
        (chain.filter (fun e => decide (e < PERF_CONTEXT_MAX) && decide (e ≠ orig))).length := by
  intro chain
  induction chain with
  | nil =>
    intro ok st r h
    simp only [mapCallchainEntries] at h
    cases h
    rfl
  | cons e rest ih =>
    intro ok st r h
    simp only [mapCallchainEntries] at h
    by_cases h1 : e ≥ PERF_CONTEXT_MAX
    · rw [if_pos h1] at h
      cases hrec : mapCallchainEntries opts pid tid ip orig rest ok st with
      | none => rw [hrec] at h; cases h
      | some r' =>
        rw [hrec] at h
        cases h
        have hlt : ¬ (e < PERF_CONTEXT_MAX) := not_lt.mpr h1
        simp [List.filter, hlt, ih _ _ _ hrec]
    · rw [if_neg h1] at h
      by_cases h2 : e = orig
      · rw [if_pos h2] at h
        cases hrec : mapCallchainEntries opts pid tid ip orig rest ok st with
        | none => rw [hrec] at h; cases h
        | some r' =>
          rw [hrec] at h
          cases h
          simp [List.filter, h2, ih _ _ _ hrec]
      · rw [if_neg h2] at h
        cases hm : mapIPAndPidAndGetNameAndOffset opts st e pid tid DSOAndOffset.null with
        | none => rw [hm] at h; cases h
        | some mr =>
          rw [hm] at h
          dsimp only [] at h
          cases hrec : mapCallchainEntries opts pid tid ip orig rest (ok && mr.mapped) mr.state with
          | none => rw [hrec] at h; cases h
          | some r' =>
            rw [hrec] at h
            cases h
            have hlt : e < PERF_CONTEXT_MAX := lt_of_not_ge h1
            simp [List.filter, hlt, h2, ih _ _ _ hrec]

/-- C1 amended: the resolved `DSOAndOffset` list of `MapCallchain` holds one
slot per *attempted* entry — call-chain addresses below `PERF_CONTEXT_MAX` and
different from the sentinel `sample.ip` — whether or not the mapping
succeeded; context markers and the sentinel occupy no slots, but unmapped
attempted entries do. -/
theorem c1_callchain_one_slot_per_attempted_entry (opts : PerfParserOptions)
    (st : ParserState) (ip pid tid orig : Nat) (chain : List Nat)
    (r : Bool × List Nat × List DSOAndOffset × ParserState)
    (h : mapCallchain opts st ip pid tid orig chain = some r) :
    r.2.2.1.length =
      (chain.filter (fun e => decide (e < PERF_CONTEXT_MAX) && decide (e ≠ orig))).length := by
  unfold mapCallchain at h
  by_cases he : chain.isEmpty
  · rw [if_pos he] at h
    cases h
    rw [List.isEmpty_iff.mp he]
    rfl
  · rw [if_neg he] at h
    exact mapCallchainEntries_resolved_length opts pid tid ip orig chain true st r h

/-- C1 counterexample, the spec's S5 shape: the call chain
`[context, 0xdeadbeef (unmapped), sample.ip (sentinel), 0x2080 (mapped)]`
yields a resolved list of length 2 — one slot per attempted entry, only one of
them successfully mapped — while the claim (and the spec's S5, which expects
length 1) says unmapped entries occupy no slots. -/
theorem c1_dense_callchain_counterexample :
    (processEvents ⟨false, false, (95, 1), false⟩ false []
        (initialState
          [⟨PERF_RECORD_MMAP, 0, none, some ⟨7, 7, 0x2000, 0x1000, 0, 0, 0, 0, "/lib/y"⟩,
            none, none⟩,
           ⟨PERF_RECORD_SAMPLE, 0,
            some ⟨7, 7, 0x2040, false, 0, [PERF_CONTEXT_MAX, 0xdeadbeef, 0x2040, 0x2080], []⟩,
            none, none, none⟩])).map
      (fun r => (r.2.parsed_events[1]?).map
        (fun pe => (pe.callchain.length,
          (pe.callchain.filter (fun d => d.dsoName.isSome)).length))) =
      some (some (2, 1)) := by decide

/-- Concrete instantiation of the amended C1 theorem on the S5-shaped call
chain: four entries, two attempted (the context marker and the sentinel are
skipped), so two resolved slots. -/
theorem c1_callchain_one_slot_per_attempted_entry_witness :
    ∃ r, mapCallchain ⟨false, false, (95, 1), false⟩
        ⟨[ParsedEvent.fresh ⟨PERF_RECORD_MMAP, 0, none,
            some ⟨7, 7, 0x2000, 0x1000, 0, 0, 0, 0, "/lib/y"⟩, none, none⟩],
          [(7, ⟨[⟨0x2000, 0x3000, 0, 0, false⟩], 4096⟩)], [], [],
          [("/lib/y", ⟨"/lib/y", 0, 0, 0, "", false, []⟩)], PerfEventStats.zero⟩
        0x2040 7 7 0x2040 [PERF_CONTEXT_MAX, 0xdeadbeef, 0x2040, 0x2080] = some r ∧
      r.2.2.1.length = 2 := by
  obtain ⟨r, hr⟩ : ∃ r, mapCallchain ⟨false, false, (95, 1), false⟩
      ⟨[ParsedEvent.fresh ⟨PERF_RECORD_MMAP, 0, none,
          some ⟨7, 7, 0x2000, 0x1000, 0, 0, 0, 0, "/lib/y"⟩, none, none⟩],
        [(7, ⟨[⟨0x2000, 0x3000, 0, 0, false⟩], 4096⟩)], [], [],
        [("/lib/y", ⟨"/lib/y", 0, 0, 0, "", false, []⟩)], PerfEventStats.zero⟩
      0x2040 7 7 0x2040 [PERF_CONTEXT_MAX, 0xdeadbeef, 0x2040, 0x2080] = some r :=
    ⟨_, rfl⟩
  refine ⟨r, hr, ?_⟩
  rw [c1_callchain_one_slot_per_attempted_entry _ _ _ _ _ _ _ _ hr]
  decide

/-! ## C9: side effects persist when the remap alignment check fails -/

/-- C9: in remap mode, when the address is found in an interval but the
page-alignment comparison between the synthetic and the original address
fails, `MapIPAndPidAndGetNameAndOffset` returns failure while its earlier side
effects persist: the DSO's `hit` flag is set, the (pid,tid) pair is in the
DSO's `threads` set, and the owning MMAP's `num_samples_in_mmap_region` is
incremented — nothing is rolled back (perf_parser.cc:649-659). -/
theorem c9_remap_alignment_failure_keeps_side_effects (opts : PerfParserOptions)
    (st : ParserState) (ip pid tid : Nat)
    (dso0 : DSOAndOffset) (synth : Nat) (it : AMapping) (pe : ParsedEvent) (dso : DSOInfo)
    (hremap : opts.do_remap = true)
    (hfind : (getOrCreateProcessMapper st.process_mappers pid 0).1.1.getMappedAddressAndListIterator ip
      = some (synth, it))
    (hpe : st.parsed_events[it.id]? = some pe)
    (hdso : lookupA ((pe.event.mmap.map (fun m => m.filename)).getD "") st.name_to_dso = some dso)
    (halign : GetPageAlignedOffset synth ≠ GetPageAlignedOffset ip) :
    ∃ r, mapIPAndPidAndGetNameAndOffset opts st ip pid tid dso0 = some r ∧
      r.mapped = false ∧
      (∃ d, lookupA ((pe.event.mmap.map (fun m => m.filename)).getD "") r.state.name_to_dso
          = some d ∧ d.hit = true ∧ mergeTwoU32 pid tid ∈ d.threads) ∧
      (r.state.parsed_events[it.id]?).map (fun p => p.num_samples_in_mmap_region) =
        some (pe.num_samples_in_mmap_region + 1) := by
  rw [List.getElem?_eq_some] at hpe
  obtain ⟨hid, hget⟩ := hpe
  simp only [mapIPAndPidAndGetNameAndOffset, hfind, AddressMapper.getMappedIDAndOffset]
  rw [dif_pos hid]
  simp only [List.get_eq_getElem, hget, hdso, hremap, if_pos halign, if_true]
  refine ⟨_, rfl, rfl, ⟨_, lookupA_storeA_self _ _ _, rfl, mem_insertS_self _ _⟩, ?_⟩
  rw [List.getElem?_set_eq_of_lt _ hid]
  rfl

/-- Concrete instantiation of the C9 theorem: pid 5's mapper holds a JIT
interval of non-page length followed by the interval owning 0x3100, so the
dense synthetic address 0x900 disagrees with 0x3100 on the page offset; the
call fails yet `hit`, `threads` and the MMAP's sample count are updated. -/
theorem c9_remap_alignment_failure_keeps_side_effects_witness :
    ∃ r, mapIPAndPidAndGetNameAndOffset ⟨true, false, (95, 1), false⟩
        ⟨[ParsedEvent.fresh ⟨PERF_RECORD_COMM, 0, none, none, some ⟨5, 5, "c"⟩, none⟩,
          ParsedEvent.fresh ⟨PERF_RECORD_MMAP, 0, none,
            some ⟨5, 5, 0x3000, 0x1000, 0, 0, 0, 0, "m"⟩, none, none⟩],
         [(5, ⟨[⟨0x1000, 0x1800, 0, 0, true⟩, ⟨0x3000, 0x4000, 0, 1, false⟩], 4096⟩)],
         [], [], [("m", ⟨"m", 0, 0, 0, "", false, []⟩)], PerfEventStats.zero⟩
        0x3100 5 5 DSOAndOffset.null = some r ∧
      r.mapped = false ∧
      (∃ d, lookupA "m" r.state.name_to_dso = some d ∧ d.hit = true ∧
        mergeTwoU32 5 5 ∈ d.threads) ∧
      (r.state.parsed_events[1]?).map (fun p => p.num_samples_in_mmap_region) =
        some (0 + 1) :=
  c9_remap_alignment_failure_keeps_side_effects ⟨true, false, (95, 1), false⟩
    ⟨[ParsedEvent.fresh ⟨PERF_RECORD_COMM, 0, none, none, some ⟨5, 5, "c"⟩, none⟩,
      ParsedEvent.fresh ⟨PERF_RECORD_MMAP, 0, none,
        some ⟨5, 5, 0x3000, 0x1000, 0, 0, 0, 0, "m"⟩, none, none⟩],
     [(5, ⟨[⟨0x1000, 0x1800, 0, 0, true⟩, ⟨0x3000, 0x4000, 0, 1, false⟩], 4096⟩)],
     [], [], [("m", ⟨"m", 0, 0, 0, "", false, []⟩)], PerfEventStats.zero⟩
    0x3100 5 5 DSOAndOffset.null 0x900 ⟨0x3000, 0x4000, 0, 1, false⟩
    (ParsedEvent.fresh ⟨PERF_RECORD_MMAP, 0, none,
      some ⟨5, 5, 0x3000, 0x1000, 0, 0, 0, 0, "m"⟩, none, none⟩)
    ⟨"m", 0, 0, 0, "", false, []⟩
    rfl (by decide) (by decide) (by decide) (by decide)

/-! ## State-invariant lemmas for the sample pipeline -/

theorem setPE_stats (st : ParserState) (i : Nat) (f : ParsedEvent → ParsedEvent) :
    (setPE st i f).stats = st.stats := by
  unfold setPE
  split <;> rfl

theorem setSampleF_stats (st : ParserState) (i : Nat) (f : SampleData → SampleData) :
    (setSampleF st i f).stats = st.stats := setPE_stats _ _ _

theorem mapIPAndPid_stats (opts : PerfParserOptions) (st : ParserState)
    (ip pid tid : Nat) (dso0 : DSOAndOffset) (r : MapIPResult)
    (h : mapIPAndPidAndGetNameAndOffset opts st ip pid tid dso0 = some r) :
    r.state.stats = st.stats := by
  simp only [mapIPAndPidAndGetNameAndOffset] at h
  split at h
  · cases h; rfl
  · split at h
    · split at h
      · cases h
      · split at h
        · split at h
          · cases h; rfl
          · cases h; rfl
        · cases h; rfl
    · cases h

theorem mapCallchainEntries_stats (opts : PerfParserOptions) (pid tid ip orig : Nat) :
    ∀ (chain : List Nat) (ok : Bool) (st : ParserState)
      (r : Bool × List Nat × List DSOAndOffset × ParserState),
      mapCallchainEntries opts pid tid ip orig chain ok st = some r →
      r.2.2.2.stats = st.stats := by
  intro chain
  induction chain with
  | nil =>
    intro ok st r h
    simp only [mapCallchainEntries] at h
    cases h
    rfl
  | cons e rest ih =>
    intro ok st r h
    simp only [mapCallchainEntries] at h
    split at h
    · cases hrec : mapCallchainEntries opts pid tid ip orig rest ok st with
      | none => rw [hrec] at h; cases h
      | some r' => rw [hrec] at h; cases h; exact ih ok st r' hrec
    · split at h
      · cases hrec : mapCallchainEntries opts pid tid ip orig rest ok st with
        | none => rw [hrec] at h; cases h
        | some r' => rw [hrec] at h; cases h; exact ih ok st r' hrec
      · cases hm : mapIPAndPidAndGetNameAndOffset opts st e pid tid DSOAndOffset.null with
        | none => rw [hm] at h; cases h
        | some mr =>
          rw [hm] at h
          dsimp only [] at h
          cases hrec : mapCallchainEntries opts pid tid ip orig rest (ok && mr.mapped) mr.state with
          | none => rw [hrec] at h; cases h
          | some r' =>
            rw [hrec] at h
            cases h
            rw [ih _ _ _ hrec, mapIPAndPid_stats _ _ _ _ _ _ _ hm]

theorem mapCallchain_stats (opts : PerfParserOptions) (st : ParserState)
    (ip pid tid orig : Nat) (chain : List Nat)
    (r : Bool × List Nat × List DSOAndOffset × ParserState)
    (h : mapCallchain opts st ip pid tid orig chain = some r) :
    r.2.2.2.stats = st.stats := by
  unfold mapCallchain at h
  split at h
  · cases h; rfl
  · exact mapCallchainEntries_stats _ _ _ _ _ _ _ _ _ h

theorem mapBranchEntriesAux_stats (opts : PerfParserOptions) (pid tid : Nat) :
    ∀ (stack : List BranchStackEntryData) (st : ParserState)
      (r : Bool × List BranchStackEntryData × List ParsedBranchEntry × ParserState),
      mapBranchEntriesAux opts pid tid stack st = some r →
      r.2.2.2.stats = st.stats := by
  intro stack
  induction stack with
  | nil =>
    intro st r h
    simp only [mapBranchEntriesAux] at h
    cases h
    rfl
  | cons e rest ih =>
    intro st r h
    simp only [mapBranchEntriesAux] at h
    cases hf : mapIPAndPidAndGetNameAndOffset opts st e.from_ip pid tid DSOAndOffset.null with
    | none => rw [hf] at h; cases h
    | some rf =>
      rw [hf] at h
      dsimp only [] at h
      split at h
      · cases ht : mapIPAndPidAndGetNameAndOffset opts rf.state e.to_ip pid tid DSOAndOffset.null with
        | none => rw [ht] at h; cases h
        | some rt =>
          rw [ht] at h
          dsimp only [] at h
          split at h
          · cases hrec : mapBranchEntriesAux opts pid tid rest rt.state with
            | none => rw [hrec] at h; cases h
            | some r' =>
              rw [hrec] at h
              cases h
              rw [ih _ _ hrec, mapIPAndPid_stats _ _ _ _ _ _ _ ht,
                mapIPAndPid_stats _ _ _ _ _ _ _ hf]
          · cases h
            rw [mapIPAndPid_stats _ _ _ _ _ _ _ ht, mapIPAndPid_stats _ _ _ _ _ _ _ hf]
      · cases h
        exact mapIPAndPid_stats _ _ _ _ _ _ _ hf

theorem mapBranchStack_stats (opts : PerfParserOptions) (st : ParserState) (pid tid : Nat)
    (stack : List BranchStackEntryData)
    (r : Bool × List BranchStackEntryData × List ParsedBranchEntry × ParserState)
    (h : mapBranchStack opts st pid tid stack = some r) :
    r.2.2.2.stats = st.stats := by
  simp only [mapBranchStack] at h
  split at h
  · cases hrec : mapBranchEntriesAux opts pid tid (stack.take (countLeadingNonNull stack)) st with
    | none => rw [hrec] at h; cases h
    | some r' =>
      rw [hrec] at h
      obtain ⟨ok, stack', parsed', stb⟩ := r'
      dsimp only [] at h
      cases h
      have hst := mapBranchEntriesAux_stats opts pid tid
        (stack.take (countLeadingNonNull stack)) st (ok, stack', parsed', stb) hrec
      exact hst
  · cases h; rfl

theorem sampleAddrStep_mapped_count (opts : PerfParserOptions) (st : ParserState)
    (i : Nat) (s : SampleData) (a : Option Bool) (st' : ParserState)
    (h : sampleAddrStep opts st i s = some (a, st')) :
    st'.stats.num_sample_events_mapped = st.stats.num_sample_events_mapped := by
  unfold sampleAddrStep at h
  split at h
  · dsimp only [] at h
    split at h
    · cases h
    · rename_i r2 hm
      have hr2 := mapIPAndPid_stats _ _ _ _ _ _ _ hm
      split at h
      · cases h
        simp [setSampleF_stats, setPE_stats, hr2]
      · cases h
        simp [setPE_stats, hr2]
  · cases h; rfl

theorem sampleChainStep_stats (opts : PerfParserOptions) (st : ParserState)
    (i : Nat) (s : SampleData) (uip : Nat) (c : Option Bool) (st' : ParserState)
    (h : sampleChainStep opts st i s uip = some (c, st')) :
    st'.stats = st.stats := by
  unfold sampleChainStep at h
  split at h
  · dsimp only [] at h
    cases hm : mapCallchain opts st (((getSampleF st i).map (fun sm => sm.ip)).getD 0)
        s.pid s.tid uip s.callchain with
    | none => rw [hm] at h; cases h
    | some r =>
      rw [hm] at h
      obtain ⟨ok, chain', resolved, stc⟩ := r
      dsimp only [] at h
      cases h
      rw [setPE_stats, setSampleF_stats]
      exact mapCallchain_stats _ _ _ _ _ _ _ _ hm
  · cases h; rfl

theorem sampleBranchStep_stats (opts : PerfParserOptions) (st : ParserState)
    (i : Nat) (s : SampleData) (b : Option Bool) (st' : ParserState)
    (h : sampleBranchStep opts st i s = some (b, st')) :
    st'.stats = st.stats := by
  unfold sampleBranchStep at h
  split at h
  · cases hm : mapBranchStack opts st s.pid s.tid s.branchStack with
    | none => rw [hm] at h; cases h
    | some r =>
      rw [hm] at h
      obtain ⟨ok, stack', parsed', stb⟩ := r
      dsimp only [] at h
      cases h
      rw [setPE_stats, setSampleF_stats]
      exact mapBranchStack_stats _ _ _ _ _ _ hm
  · cases h; rfl

theorem sampleIpStep_stats (opts : PerfParserOptions) (st : ParserState) (i : Nat)
    (s : SampleData) (ok : Bool) (st' : ParserState)
    (h : sampleIpStep opts st i s = some (ok, st')) :
    st'.stats = st.stats := by
  unfold sampleIpStep at h
  obtain ⟨st1, hst1, hstats1⟩ : ∃ st1,
      (match lookupA (s.pid, s.tid) st.pidtid_to_comm_map with
        | some c => setPE st i (fun pe => { pe with command := some c })
        | none => st) = st1 ∧ st1.stats = st.stats := by
    cases lookupA (s.pid, s.tid) st.pidtid_to_comm_map
    · exact ⟨_, rfl, rfl⟩
    · exact ⟨_, rfl, setPE_stats _ _ _⟩
  rw [hst1] at h
  dsimp only [] at h
  split at h
  · cases h
  · rename_i r1 hr1
    cases h
    have hr := mapIPAndPid_stats _ _ _ _ _ _ _ hr1
    split
    · rw [setSampleF_stats, setPE_stats, hr, hstats1]
    · rw [setPE_stats, hr, hstats1]

/-- The net effect of `MapSampleEvent` on `num_sample_events_mapped`: the
counter is incremented exactly when the ip mapping and, where attempted, the
call-chain and branch-stack mappings all succeeded; the data-address mapping
result plays no role. -/
theorem mapSampleEvent_mapped_eq (opts : PerfParserOptions) (st : ParserState) (i : Nat)
    (s : SampleData) (hs : (st.parsed_events[i]?).bind (fun pe => pe.event.sample) = some s)
    (r : SampleMapOutcome) (h : mapSampleEvent opts st i = some r) :
    r.state.stats.num_sample_events_mapped =
      st.stats.num_sample_events_mapped +
        (if r.ipOk && r.chainOk.getD true && r.branchOk.getD true then 1 else 0) := by
  unfold mapSampleEvent at h
  rw [hs] at h
  dsimp only [] at h
  split at h
  · cases h
  · rename_i ipOk st3 hip
    split at h
    · cases h
    · rename_i addrOk st4 haddr
      split at h
      · cases h
      · rename_i chainOk st5 hchain
        split at h
        · cases h
        · rename_i branchOk st6 hbranch
          have e3 := sampleIpStep_stats _ _ _ _ _ _ hip
          have e4 := sampleAddrStep_mapped_count _ _ _ _ _ _ haddr
          have e5 := sampleChainStep_stats _ _ _ _ _ _ _ hchain
          have e6 := sampleBranchStep_stats _ _ _ _ _ _ hbranch
          split at h
          · rename_i hok
            cases h
            dsimp only []
            rw [if_pos hok, e6, e5, e4, e3]
          · rename_i hok
            cases h
            dsimp only []
            rw [if_neg hok, e6, e5, e4, e3]
            omega

/-- C8: `num_sample_events_mapped` is incremented exactly when the ip mapping
and — when a call chain or branch stack is present — the call-chain and
branch-stack mappings all succeed; a failure to map a non-zero `sample.addr`
(`addrOk = some false`) does not prevent the increment, since the counter
update does not consult it. -/
theorem c8_mapped_iff_ip_chain_branch (opts : PerfParserOptions) (st : ParserState) (i : Nat)
    (s : SampleData) (hs : (st.parsed_events[i]?).bind (fun pe => pe.event.sample) = some s)
    (r : SampleMapOutcome) (h : mapSampleEvent opts st i = some r) :
    r.state.stats.num_sample_events_mapped =
      st.stats.num_sample_events_mapped +
        (if r.ipOk && r.chainOk.getD true && r.branchOk.getD true then 1 else 0) :=
  mapSampleEvent_mapped_eq opts st i s hs r h

/-- Concrete instantiation of the C8 theorem: a sample whose ip fails to map
(no interval covers it) is not counted; the counter equation holds with the
increment guard evaluating to false. -/
theorem c8_mapped_iff_ip_chain_branch_witness :
    mapSampleEvent ⟨false, false, (95, 1), false⟩
      ⟨[ParsedEvent.fresh ⟨PERF_RECORD_SAMPLE, 0,
          some ⟨7, 7, 0x1100, false, 0, [], []⟩, none, none, none⟩],
        [], [], [], [], PerfEventStats.zero⟩ 0 =
      some ⟨false, none, none, none,
        ⟨[ParsedEvent.fresh ⟨PERF_RECORD_SAMPLE, 0,
            some ⟨7, 7, 0x1100, false, 0, [], []⟩, none, none, none⟩],
          [(7, ⟨[], 4096⟩)], [], [], [], PerfEventStats.zero⟩⟩ ∧
    ((⟨[ParsedEvent.fresh ⟨PERF_RECORD_SAMPLE, 0,
          some ⟨7, 7, 0x1100, false, 0, [], []⟩, none, none, none⟩],
        [(7, ⟨[], 4096⟩)], [], [], [], PerfEventStats.zero⟩ : ParserState)).stats.num_sample_events_mapped =
      ((⟨[ParsedEvent.fresh ⟨PERF_RECORD_SAMPLE, 0,
          some ⟨7, 7, 0x1100, false, 0, [], []⟩, none, none, none⟩],
        [], [], [], [], PerfEventStats.zero⟩ : ParserState)).stats.num_sample_events_mapped +
        (if false && (none : Option Bool).getD true && (none : Option Bool).getD true
          then 1 else 0) := by
  constructor
  · decide
  · exact c8_mapped_iff_ip_chain_branch ⟨false, false, (95, 1), false⟩
      ⟨[ParsedEvent.fresh ⟨PERF_RECORD_SAMPLE, 0,
          some ⟨7, 7, 0x1100, false, 0, [], []⟩, none, none, none⟩],
        [], [], [], [], PerfEventStats.zero⟩ 0
      ⟨7, 7, 0x1100, false, 0, [], []⟩ (by decide)
      ⟨false, none, none, none,
        ⟨[ParsedEvent.fresh ⟨PERF_RECORD_SAMPLE, 0,
            some ⟨7, 7, 0x1100, false, 0, [], []⟩, none, none, none⟩],
          [(7, ⟨[], 4096⟩)], [], [], [], PerfEventStats.zero⟩⟩ (by decide)

/-! ## C3: malformed branch stacks do not abort the parse -/

/-- C3 amended: a branch stack with a non-zero entry after an all-zero entry
makes `MapBranchStack` return false with the stack, the resolved entries and
the state untouched; through `MapSampleEvent` this only prevents
`num_sample_events_mapped` from being incremented (the sample stays unmapped).
The parse itself does not abort: `MapSampleEvent` is void and `ProcessEvents`
does not consult any branch-stack result (see the counterexample, where such a
parse returns true). -/
theorem c3_branch_stack_error_marks_sample_unmapped :
    (∀ (opts : PerfParserOptions) (st : ParserState) (pid tid : Nat)
        (stack : List BranchStackEntryData),
      (stack.drop (countLeadingNonNull stack)).all isNullBranchStackEntry = false →
      mapBranchStack opts st pid tid stack = some (false, stack, [], st)) ∧
    (∀ (opts : PerfParserOptions) (st : ParserState) (i : Nat) (r : SampleMapOutcome),
      mapSampleEvent opts st i = some r → r.branchOk = some false →
      r.state.stats.num_sample_events_mapped = st.stats.num_sample_events_mapped) := by
  constructor
  · intro opts st pid tid stack hmal
    simp [mapBranchStack, hmal]
  · intro opts st i r h hb
    cases hs : (st.parsed_events[i]?).bind (fun pe => pe.event.sample) with
    | none =>
      unfold mapSampleEvent at h
      rw [hs] at h
      cases h
      cases hb
    | some s =>
      have heq := mapSampleEvent_mapped_eq opts st i s hs r h
      rw [hb] at heq
      simp only [Option.getD_some, Bool.and_false] at heq
      simpa using heq

/-- C3 counterexample: an input whose only SAMPLE carries a branch stack with
a non-zero entry after a zero entry parses to completion — `ProcessEvents`
returns true (threshold 0), the whole parse does not abort; the sample is
merely left unmapped (`num_sample_events_mapped = 0`). -/
theorem c3_branch_stack_error_aborts_counterexample :
    (processEvents ⟨false, false, (0, 1), false⟩ false []
        (initialState
          [⟨PERF_RECORD_MMAP, 0, none, some ⟨7, 7, 0x1000, 0x1000, 0, 0, 0, 0, "/bin/x"⟩,
            none, none⟩,
           ⟨PERF_RECORD_SAMPLE, 0,
            some ⟨7, 7, 0x1100, false, 0, [],
              [⟨0, 0, false, false, false, false, 0⟩,
               ⟨0x1100, 0x1200, false, false, false, false, 0⟩]⟩, none, none, none⟩])).map
      (fun r => (r.1, r.2.stats.num_sample_events, r.2.stats.num_sample_events_mapped)) =
      some (true, 1, 0) := by decide

/-- Concrete instantiation of the amended C3 theorem: `MapBranchStack` on
`[null, non-null]` refuses with everything untouched. -/
theorem c3_branch_stack_error_marks_sample_unmapped_witness :
    mapBranchStack ⟨false, false, (0, 1), false⟩ (initialState []) 7 7
      [⟨0, 0, false, false, false, false, 0⟩, ⟨0x1100, 0x1200, false, false, false, false, 0⟩] =
      some (false,
        [⟨0, 0, false, false, false, false, 0⟩, ⟨0x1100, 0x1200, false, false, false, false, 0⟩],
        [], initialState []) :=
  c3_branch_stack_error_marks_sample_unmapped.1 ⟨false, false, (0, 1), false⟩ (initialState []) 7 7
    [⟨0, 0, false, false, false, false, 0⟩, ⟨0x1100, 0x1200, false, false, false, false, 0⟩]
    (by decide)

/-! ## C5: round-trip identity of MMAP and sample address fields without remap

`evFieldsE` projects exactly the fields the claim is about: an MMAP record's
`start`/`len`/`pgoff` and a SAMPLE record's `ip`/`addr`. -/

def evFieldsE (e : PerfEvent) : Option (Nat × Nat × Nat) × Option (Nat × Nat) :=
  (e.mmap.map (fun m => (m.start, m.len, m.pgoff)), e.sample.map (fun s => (s.ip, s.addr)))

/-- The records of the two states agree (pointwise) as events. -/
def eventsEq (st st' : ParserState) : Prop :=
  ∀ j : Nat, (st'.parsed_events[j]?).map (fun pe => pe.event) =
    (st.parsed_events[j]?).map (fun pe => pe.event)

/-- The records of the two states agree on the C5 fields. -/
def evOk (st st' : ParserState) : Prop :=
  ∀ j : Nat, (st'.parsed_events[j]?).map (fun pe => evFieldsE pe.event) =
    (st.parsed_events[j]?).map (fun pe => evFieldsE pe.event)

theorem eventsEq_refl (st : ParserState) : eventsEq st st := fun _ => rfl

theorem eventsEq_trans {a b c : ParserState} (h1 : eventsEq a b) (h2 : eventsEq b c) :
    eventsEq a c := fun j => (h2 j).trans (h1 j)

theorem evOk_refl (st : ParserState) : evOk st st := fun _ => rfl

theorem evOk_trans {a b c : ParserState} (h1 : evOk a b) (h2 : evOk b c) : evOk a c :=
  fun j => (h2 j).trans (h1 j)

theorem evOk_of_eventsEq {a b : ParserState} (h : eventsEq a b) : evOk a b := by
  intro j
  have hj := h j
  cases hb : b.parsed_events[j]? <;> cases ha : a.parsed_events[j]? <;>
    rw [hb, ha] at hj <;> simp_all

theorem eventsEq_of_parsed_events_eq {a b : ParserState}
    (h : b.parsed_events = a.parsed_events) : eventsEq a b := by
  intro j; rw [h]

theorem getSampleF_congr {a b : ParserState} (h : eventsEq a b) (i : Nat) :
    getSampleF b i = getSampleF a i := by
  have hj := h i
  unfold getSampleF
  cases hb : b.parsed_events[i]? <;> cases ha : a.parsed_events[i]? <;>
    rw [hb, ha] at hj <;> simp_all

theorem setPE_eventsEq (st : ParserState) (i : Nat) (f : ParsedEvent → ParsedEvent)
    (h : ∀ pe, st.parsed_events[i]? = some pe → (f pe).event = pe.event) :
    eventsEq st (setPE st i f) := by
  unfold setPE
  cases hl : st.parsed_events[i]? with
  | none => exact eventsEq_refl st
  | some pe =>
    obtain ⟨hlen, -⟩ := List.getElem?_eq_some.mp hl
    intro j
    show ((st.parsed_events.set i (f pe))[j]?).map _ = _
    rw [List.getElem?_set]
    by_cases hij : i = j
    · subst hij
      rw [if_pos rfl, if_pos hlen, hl]
      simp [h pe hl]
    · rw [if_neg hij]

theorem setSampleF_evOk (st : ParserState) (i : Nat) (f : SampleData → SampleData)
    (h : ∀ sm, getSampleF st i = some sm → ((f sm).ip = sm.ip ∧ (f sm).addr = sm.addr)) :
    evOk st (setSampleF st i f) := by
  unfold setSampleF setPE
  cases hl : st.parsed_events[i]? with
  | none => exact evOk_refl st
  | some pe =>
    obtain ⟨hlen, -⟩ := List.getElem?_eq_some.mp hl
    intro j
    show ((st.parsed_events.set i _)[j]?).map _ = _
    rw [List.getElem?_set]
    by_cases hij : i = j
    · subst hij
      rw [if_pos rfl, if_pos hlen, hl]
      simp only [Option.map_some]
      unfold evFieldsE
      cases hsm : pe.event.sample with
      | none => simp [hsm]
      | some sm =>
        have hgs : getSampleF st i = some sm := by
          unfold getSampleF
          rw [hl]
          simp [hsm]
        obtain ⟨hip, haddr⟩ := h sm hgs
        simp [hsm, hip, haddr]
    · rw [if_neg hij]

theorem map_event_getElem?_set (l : List ParsedEvent) (i : Nat) (pe pe' : ParsedEvent)
    (hl : l[i]? = some pe) (hev : pe'.event = pe.event) (j : Nat) :
    ((l.set i pe')[j]?).map (fun q => q.event) = (l[j]?).map (fun q => q.event) := by
  obtain ⟨hlen, -⟩ := List.getElem?_eq_some.mp hl
  rw [List.getElem?_set]
  by_cases hij : i = j
  · subst hij
    rw [if_pos rfl, if_pos hlen, hl]
    simp [hev]
  · rw [if_neg hij]

theorem mapIPAndPid_eventsEq (opts : PerfParserOptions) (st : ParserState)
    (ip pid tid : Nat) (dso0 : DSOAndOffset) (r : MapIPResult)
    (h : mapIPAndPidAndGetNameAndOffset opts st ip pid tid dso0 = some r) :
    eventsEq st r.state := by
  simp only [mapIPAndPidAndGetNameAndOffset] at h
  split at h
  · cases h
    exact eventsEq_of_parsed_events_eq rfl
  · split at h
    · rename_i hid
      split at h
      · cases h
      · split at h
        · split at h
          · cases h
            intro j
            dsimp only []
            refine map_event_getElem?_set _ _ _ _ (List.getElem?_eq_getElem hid) ?_ j
            rfl
          · cases h
            intro j
            dsimp only []
            refine map_event_getElem?_set _ _ _ _ (List.getElem?_eq_getElem hid) ?_ j
            rfl
        · cases h
          intro j
          dsimp only []
          refine map_event_getElem?_set _ _ _ _ (List.getElem?_eq_getElem hid) ?_ j
          rfl
    · cases h

theorem mapIPAndPid_new_ip (opts : PerfParserOptions) (st : ParserState)
    (ip pid tid : Nat) (dso0 : DSOAndOffset) (r : MapIPResult)
    (hremap : opts.do_remap = false)
    (h : mapIPAndPidAndGetNameAndOffset opts st ip pid tid dso0 = some r)
    (hm : r.mapped = true) : r.new_ip = ip := by
  simp only [mapIPAndPidAndGetNameAndOffset] at h
  split at h
  · cases h; cases hm
  · split at h
    · split at h
      · cases h
      · rw [hremap] at h
        simp only [Bool.false_eq_true, if_false] at h
        cases h
        rfl
    · cases h

theorem getSampleF_setSampleF (st : ParserState) (i : Nat) (f : SampleData → SampleData) :
    getSampleF (setSampleF st i f) i = (getSampleF st i).map f := by
  unfold setSampleF setPE
  cases hl : st.parsed_events[i]? with
  | none =>
    unfold getSampleF
    rw [hl]
    rfl
  | some pe =>
    obtain ⟨hlen, -⟩ := List.getElem?_eq_some.mp hl
    unfold getSampleF
    show ((st.parsed_events.set i _)[i]?).bind _ = _
    rw [List.getElem?_set_eq_of_lt _ hlen, hl]
    cases pe.event.sample <;> rfl

theorem mapCallchainEntries_eventsEq (opts : PerfParserOptions) (pid tid ip orig : Nat) :
    ∀ (chain : List Nat) (ok : Bool) (st : ParserState)
      (r : Bool × List Nat × List DSOAndOffset × ParserState),
      mapCallchainEntries opts pid tid ip orig chain ok st = some r →
      eventsEq st r.2.2.2 := by
  intro chain
  induction chain with
  | nil =>
    intro ok st r h
    simp only [mapCallchainEntries] at h
    cases h
    exact eventsEq_refl st
  | cons e rest ih =>
    intro ok st r h
    simp only [mapCallchainEntries] at h
    split at h
    · cases hrec : mapCallchainEntries opts pid tid ip orig rest ok st with
      | none => rw [hrec] at h; cases h
      | some r' => rw [hrec] at h; cases h; exact ih ok st r' hrec
    · split at h
      · cases hrec : mapCallchainEntries opts pid tid ip orig rest ok st with
        | none => rw [hrec] at h; cases h
        | some r' => rw [hrec] at h; cases h; exact ih ok st r' hrec
      · cases hm : mapIPAndPidAndGetNameAndOffset opts st e pid tid DSOAndOffset.null with
        | none => rw [hm] at h; cases h
        | some mr =>
          rw [hm] at h
          dsimp only [] at h
          cases hrec : mapCallchainEntries opts pid tid ip orig rest (ok && mr.mapped) mr.state with
          | none => rw [hrec] at h; cases h
          | some r' =>
            rw [hrec] at h
            cases h
            exact eventsEq_trans (mapIPAndPid_eventsEq _ _ _ _ _ _ _ hm) (ih _ _ r' hrec)

theorem mapCallchain_eventsEq (opts : PerfParserOptions) (st : ParserState)
    (ip pid tid orig : Nat) (chain : List Nat)
    (r : Bool × List Nat × List DSOAndOffset × ParserState)
    (h : mapCallchain opts st ip pid tid orig chain = some r) :
    eventsEq st r.2.2.2 := by
  unfold mapCallchain at h
  split at h
  · cases h; exact eventsEq_refl st
  · exact mapCallchainEntries_eventsEq _ _ _ _ _ _ _ _ _ h

theorem mapBranchEntriesAux_eventsEq (opts : PerfParserOptions) (pid tid : Nat) :
    ∀ (stack : List BranchStackEntryData) (st : ParserState)
      (r : Bool × List BranchStackEntryData × List ParsedBranchEntry × ParserState),
      mapBranchEntriesAux opts pid tid stack st = some r →
      eventsEq st r.2.2.2 := by
  intro stack
  induction stack with
  | nil =>
    intro st r h
    simp only [mapBranchEntriesAux] at h
    cases h
    exact eventsEq_refl st
  | cons e rest ih =>
    intro st r h
    simp only [mapBranchEntriesAux] at h
    cases hf : mapIPAndPidAndGetNameAndOffset opts st e.from_ip pid tid DSOAndOffset.null with
    | none => rw [hf] at h; cases h
    | some rf =>
      rw [hf] at h
      dsimp only [] at h
      split at h
      · cases ht : mapIPAndPidAndGetNameAndOffset opts rf.state e.to_ip pid tid DSOAndOffset.null with
        | none => rw [ht] at h; cases h
        | some rt =>
          rw [ht] at h
          dsimp only [] at h
          split at h
          · cases hrec : mapBranchEntriesAux opts pid tid rest rt.state with
            | none => rw [hrec] at h; cases h
            | some r' =>
              rw [hrec] at h
              cases h
              exact eventsEq_trans (mapIPAndPid_eventsEq _ _ _ _ _ _ _ hf)
                (eventsEq_trans (mapIPAndPid_eventsEq _ _ _ _ _ _ _ ht) (ih _ r' hrec))
          · cases h
            exact eventsEq_trans (mapIPAndPid_eventsEq _ _ _ _ _ _ _ hf)
              (mapIPAndPid_eventsEq _ _ _ _ _ _ _ ht)
      · cases h
        exact mapIPAndPid_eventsEq _ _ _ _ _ _ _ hf

theorem mapBranchStack_eventsEq (opts : PerfParserOptions) (st : ParserState) (pid tid : Nat)
    (stack : List BranchStackEntryData)
    (r : Bool × List BranchStackEntryData × List ParsedBranchEntry × ParserState)
    (h : mapBranchStack opts st pid tid stack = some r) :
    eventsEq st r.2.2.2 := by
  simp only [mapBranchStack] at h
  split at h
  · cases hrec : mapBranchEntriesAux opts pid tid (stack.take (countLeadingNonNull stack)) st with
    | none => rw [hrec] at h; cases h
    | some r' =>
      rw [hrec] at h
      obtain ⟨ok, stack', parsed', stb⟩ := r'
      dsimp only [] at h
      cases h
      have he := mapBranchEntriesAux_eventsEq opts pid tid
        (stack.take (countLeadingNonNull stack)) st (ok, stack', parsed', stb) hrec
      exact he
  · cases h; exact eventsEq_refl st

theorem sampleIpStep_evOk_getSample (opts : PerfParserOptions) (st : ParserState) (i : Nat)
    (s : SampleData) (ok : Bool) (st' : ParserState)
    (hremap : opts.do_remap = false) (hgs : getSampleF st i = some s)
    (h : sampleIpStep opts st i s = some (ok, st')) :
    evOk st st' ∧ getSampleF st' i = some s := by
  unfold sampleIpStep at h
  obtain ⟨st1, hst1, he1⟩ : ∃ st1,
      (match lookupA (s.pid, s.tid) st.pidtid_to_comm_map with
        | some c => setPE st i (fun pe => { pe with command := some c })
        | none => st) = st1 ∧ eventsEq st st1 := by
    cases lookupA (s.pid, s.tid) st.pidtid_to_comm_map
    · exact ⟨_, rfl, eventsEq_refl st⟩
    · exact ⟨_, rfl, setPE_eventsEq _ _ _ (fun pe _ => rfl)⟩
  rw [hst1] at h
  dsimp only [] at h
  split at h
  · cases h
  · rename_i r1 hr1
    cases h
    have he2 := mapIPAndPid_eventsEq _ _ _ _ _ _ _ hr1
    have he3 : eventsEq r1.state
        (setPE r1.state i (fun pe => { pe with dso_and_offset := r1.dso_and_offset })) :=
      setPE_eventsEq _ _ _ (fun pe _ => rfl)
    have hA : eventsEq st
        (setPE r1.state i (fun pe => { pe with dso_and_offset := r1.dso_and_offset })) :=
      eventsEq_trans (eventsEq_trans he1 he2) he3
    have hgs2 : getSampleF
        (setPE r1.state i (fun pe => { pe with dso_and_offset := r1.dso_and_offset })) i =
        some s := by
      rw [getSampleF_congr hA i]
      exact hgs
    split
    · rename_i hm
      have hnew : r1.new_ip = s.ip := mapIPAndPid_new_ip _ _ _ _ _ _ _ hremap hr1 hm
      constructor
      · refine evOk_trans (evOk_of_eventsEq hA) (setSampleF_evOk _ _ _ ?_)
        intro sm hsm
        rw [hgs2] at hsm
        cases hsm
        exact ⟨hnew, rfl⟩
      · rw [getSampleF_setSampleF, hgs2]
        have hfs : { s with ip := r1.new_ip } = s := by
          rw [hnew]
        exact congrArg some hfs
    · exact ⟨evOk_of_eventsEq hA, hgs2⟩

theorem sampleAddrStep_evOk (opts : PerfParserOptions) (st : ParserState) (i : Nat)
    (s : SampleData) (a : Option Bool) (st' : ParserState)
    (hremap : opts.do_remap = false) (hgs : getSampleF st i = some s)
    (h : sampleAddrStep opts st i s = some (a, st')) : evOk st st' := by
  unfold sampleAddrStep at h
  split at h
  · dsimp only [] at h
    split at h
    · cases h
    · rename_i r2 hm
      have heA : eventsEq st { st with stats :=
          { st.stats with num_data_sample_events := st.stats.num_data_sample_events + 1 } } :=
        eventsEq_of_parsed_events_eq rfl
      have he2 := mapIPAndPid_eventsEq _ _ _ _ _ _ _ hm
      have he3 : eventsEq r2.state
          (setPE r2.state i (fun pe => { pe with data_dso_and_offset := r2.dso_and_offset })) :=
        setPE_eventsEq _ _ _ (fun pe _ => rfl)
      have hB : eventsEq st
          (setPE r2.state i (fun pe => { pe with data_dso_and_offset := r2.dso_and_offset })) :=
        eventsEq_trans (eventsEq_trans heA he2) he3
      split at h
      · rename_i hm2
        have hnew : r2.new_ip = s.addr := mapIPAndPid_new_ip _ _ _ _ _ _ _ hremap hm hm2
        cases h
        refine evOk_trans ?_ (setSampleF_evOk _ _ _ ?_)
        · exact evOk_of_eventsEq (eventsEq_trans hB (eventsEq_of_parsed_events_eq rfl))
        · intro sm hsm
          have hsm2 : getSampleF
              (setPE r2.state i (fun pe => { pe with data_dso_and_offset := r2.dso_and_offset }))
              i = some sm := hsm
          rw [getSampleF_congr hB i, hgs] at hsm2
          cases hsm2
          exact ⟨rfl, hnew⟩
      · cases h
        exact evOk_of_eventsEq hB
  · cases h
    exact evOk_refl st

theorem sampleChainStep_evOk (opts : PerfParserOptions) (st : ParserState) (i : Nat)
    (s : SampleData) (uip : Nat) (c : Option Bool) (st' : ParserState)
    (h : sampleChainStep opts st i s uip = some (c, st')) : evOk st st' := by
  unfold sampleChainStep at h
  split at h
  · dsimp only [] at h
    cases hm : mapCallchain opts st (((getSampleF st i).map (fun sm => sm.ip)).getD 0)
        s.pid s.tid uip s.callchain with
    | none => rw [hm] at h; cases h
    | some r =>
      rw [hm] at h
      obtain ⟨ok, chain', resolved, stc⟩ := r
      dsimp only [] at h
      cases h
      have he1 : eventsEq st stc :=
        mapCallchain_eventsEq _ _ _ _ _ _ _ (ok, chain', resolved, stc) hm
      have h2 : evOk stc (setSampleF stc i (fun sm => { sm with callchain := chain' })) :=
        setSampleF_evOk _ _ _ (fun sm _ => ⟨rfl, rfl⟩)
      have h3 : eventsEq (setSampleF stc i (fun sm => { sm with callchain := chain' }))
          (setPE (setSampleF stc i (fun sm => { sm with callchain := chain' })) i
            (fun pe => { pe with callchain := resolved })) :=
        setPE_eventsEq _ _ _ (fun pe _ => rfl)
      exact evOk_trans (evOk_of_eventsEq he1) (evOk_trans h2 (evOk_of_eventsEq h3))
  · cases h
    exact evOk_refl st

theorem sampleBranchStep_evOk (opts : PerfParserOptions) (st : ParserState) (i : Nat)
    (s : SampleData) (b : Option Bool) (st' : ParserState)
    (h : sampleBranchStep opts st i s = some (b, st')) : evOk st st' := by
  unfold sampleBranchStep at h
  split at h
  · cases hm : mapBranchStack opts st s.pid s.tid s.branchStack with
    | none => rw [hm] at h; cases h
    | some r =>
      rw [hm] at h
      obtain ⟨ok, stack', parsed', stb⟩ := r
      dsimp only [] at h
      cases h
      have he1 : eventsEq st stb :=
        mapBranchStack_eventsEq _ _ _ _ _ (ok, stack', parsed', stb) hm
      have h2 : evOk stb (setSampleF stb i (fun sm => { sm with branchStack := stack' })) :=
        setSampleF_evOk _ _ _ (fun sm _ => ⟨rfl, rfl⟩)
      have h3 : eventsEq (setSampleF stb i (fun sm => { sm with branchStack := stack' }))
          (setPE (setSampleF stb i (fun sm => { sm with branchStack := stack' })) i
            (fun pe => { pe with branch_stack := parsed' })) :=
        setPE_eventsEq _ _ _ (fun pe _ => rfl)
      exact evOk_trans (evOk_of_eventsEq he1) (evOk_trans h2 (evOk_of_eventsEq h3))
  · cases h
    exact evOk_refl st

theorem mapSampleEvent_evOk (opts : PerfParserOptions) (st : ParserState) (i : Nat)
    (r : SampleMapOutcome) (hremap : opts.do_remap = false)
    (h : mapSampleEvent opts st i = some r) : evOk st r.state := by
  unfold mapSampleEvent at h
  cases hs : (st.parsed_events[i]?).bind (fun pe => pe.event.sample) with
  | none =>
    rw [hs] at h
    cases h
    exact evOk_refl st
  | some s =>
    rw [hs] at h
    dsimp only [] at h
    split at h
    · cases h
    · rename_i ipOk st3 hip
      split at h
      · cases h
      · rename_i addrOk st4 haddr
        split at h
        · cases h
        · rename_i chainOk st5 hchain
          split at h
          · cases h
          · rename_i branchOk st6 hbranch
            obtain ⟨hv3, hg3⟩ := sampleIpStep_evOk_getSample opts st i s ipOk st3 hremap hs hip
            have hv4 := sampleAddrStep_evOk opts st3 i s addrOk st4 hremap hg3 haddr
            have hv5 := sampleChainStep_evOk opts st4 i s s.ip chainOk st5 hchain
            have hv6 := sampleBranchStep_evOk opts st5 i s branchOk st6 hbranch
            have hAll : evOk st st6 := evOk_trans (evOk_trans (evOk_trans hv3 hv4) hv5) hv6
            split at h
            · cases h
              exact evOk_trans hAll (evOk_of_eventsEq (eventsEq_of_parsed_events_eq rfl))
            · cases h
              exact hAll

/-- Without remap, `MapMmapEvent` returns the event untouched and leaves the
parsed-events vector untouched (only the mapper table changes). -/
theorem mapMmapEvent_no_remap (opts : PerfParserOptions) (st : ParserState) (ev : MMapData)
    (id : Nat) (k : Bool) (md' : MMapData) (st' : ParserState)
    (hremap : opts.do_remap = false)
    (h : mapMmapEvent opts st ev id k = some (md', st')) :
    md' = ev ∧ st'.parsed_events = st.parsed_events := by
  simp only [mapMmapEvent] at h
  split at h
  · cases h
  · rw [hremap] at h
    simp only [Bool.false_eq_true, if_false] at h
    obtain ⟨h1, h2⟩ := Prod.mk.inj (Option.some.inj h)
    refine ⟨h1.symm, ?_⟩
    rw [← h2]

/-- An MMAP-typed record without a payload gets the default (zero-length)
payload, whose insertion always fails. -/
theorem mapMmapEvent_zero (opts : PerfParserOptions) (st : ParserState) (id : Nat) (k : Bool) :
    mapMmapEvent opts st MMapData.zero id k = none := by
  have hq : mmapLocalFields MMapData.zero k = (0, 0, 0) := by
    unfold mmapLocalFields MMapData.zero
    cases k <;> simp
  simp [mapMmapEvent, hq, AddressMapper.mapWithID]

theorem forkInheritComm_parsed_events (st : ParserState) (ev : ForkData) :
    (forkInheritComm st ev).parsed_events = st.parsed_events := by
  unfold forkInheritComm
  split
  · split <;> rfl
  · rfl

theorem mapForkEvent_parsed_events (st : ParserState) (ev : ForkData) :
    (mapForkEvent st ev).parsed_events = st.parsed_events := by
  unfold mapForkEvent
  dsimp only []
  split <;> exact forkInheritComm_parsed_events st ev

set_option maxHeartbeats 1000000 in
/-- One iteration of the ProcessEvents loop with remapping disabled preserves the
MMAP start/len/pgoff and SAMPLE ip/addr fields of every parsed event, whether the
iteration succeeds or returns false. -/
theorem processOneEvent_evOk (opts : PerfParserOptions) (st : ParserState) (i : Nat)
    (fkm : Bool) (st' : ParserState) (hremap : opts.do_remap = false)
    (h : (∃ fkm', processOneEvent opts st i fkm = StepOutcome.next st' fkm') ∨
      processOneEvent opts st i fkm = StepOutcome.failParse st') :
    evOk st st' := by
  have hgoal : ∀ out, processOneEvent opts st i fkm = out →
      ((∃ fkm', out = StepOutcome.next st' fkm') ∨ out = StepOutcome.failParse st') →
      evOk st st' := by
    intro out hout hcase
    unfold processOneEvent at hout
    split at hout
    · cases hout
      rcases hcase with ⟨fkm', h1⟩ | h1 <;> cases h1 <;> exact evOk_refl st
    · rename_i pe hpe
      dsimp only [] at hout
      split at hout
      · cases hout
        rcases hcase with ⟨fkm', h1⟩ | h1 <;> cases h1 <;> exact evOk_refl st
      · split at hout
        · -- SAMPLE
          split at hout
          · cases hout
            rcases hcase with ⟨fkm', h1⟩ | h1 <;> cases h1
          · rename_i r hms
            cases hout
            rcases hcase with ⟨fkm', h1⟩ | h1
            · cases h1
              have he0 : eventsEq st { st with stats :=
                  { st.stats with num_sample_events := st.stats.num_sample_events + 1 } } :=
                eventsEq_of_parsed_events_eq rfl
              exact evOk_trans (evOk_of_eventsEq he0)
                (mapSampleEvent_evOk _ _ _ _ hremap hms)
            · cases h1
        · split at hout
          · -- MMAP / MMAP2
            split at hout
            · cases hout
              rcases hcase with ⟨fkm', h1⟩ | h1 <;> cases h1
            · rename_i md' stM' hmm
              cases hout
              rcases hcase with ⟨fkm', h1⟩ | h1
              · cases h1
                obtain ⟨hmd', hpes⟩ := mapMmapEvent_no_remap _ _ _ _ _ _ _ hremap hmm
                cases hmd2 : pe.event.mmap with
                | none =>
                  rw [hmd2] at hmm
                  rw [show (Option.getD (none : Option MMapData) MMapData.zero) =
                    MMapData.zero from rfl] at hmm
                  rw [mapMmapEvent_zero] at hmm
                  cases hmm
                | some md =>
                  have he1 : eventsEq st stM' := fun j => by rw [hpes]
                  have he2 : eventsEq stM' (setPE stM' i (fun q => { q with
                      event := { q.event with mmap := some md' }, num_samples_in_mmap_region := 0 })) := by
                    refine setPE_eventsEq _ _ _ ?_
                    intro q hq
                    rw [hpes, hpe] at hq
                    cases hq
                    show PerfEvent.mk _ _ _ _ _ _ = pe.event
                    rw [hmd', hmd2]
                    show PerfEvent.mk _ _ _ (some md) _ _ = pe.event
                    have hev : pe.event = PerfEvent.mk pe.event.etype pe.event.misc
                        pe.event.sample (some md) pe.event.commE pe.event.forkE := by
                      rw [← hmd2]
                    rw [← hev]
                  exact evOk_trans (evOk_of_eventsEq he1) (evOk_trans (evOk_of_eventsEq he2)
                    (evOk_of_eventsEq (eventsEq_of_parsed_events_eq rfl)))
              · cases h1
          · split at hout
            · -- FORK
              cases hout
              rcases hcase with ⟨fkm', h1⟩ | h1
              · cases h1
                refine evOk_of_eventsEq ?_
                intro j
                rw [mapForkEvent_parsed_events]
              · cases h1
            · split at hout
              · -- EXIT
                cases hout
                rcases hcase with ⟨fkm', h1⟩ | h1
                · cases h1; exact evOk_of_eventsEq (eventsEq_of_parsed_events_eq rfl)
                · cases h1
              · split at hout
                · -- COMM
                  cases hout
                  rcases hcase with ⟨fkm', h1⟩ | h1
                  · cases h1; exact evOk_of_eventsEq (eventsEq_of_parsed_events_eq rfl)
                  · cases h1
                · split at hout
                  · -- LOST etc.
                    cases hout
                    rcases hcase with ⟨fkm', h1⟩ | h1
                    · cases h1; exact evOk_refl st
                    · cases h1
                  · -- unknown type: return false
                    cases hout
                    rcases hcase with ⟨fkm', h1⟩ | h1
                    · cases h1
                    · cases h1; exact evOk_refl st
  exact hgoal _ rfl (by
    rcases h with ⟨fkm', h1⟩ | h1
    · exact Or.inl ⟨fkm', by rw [← h1]⟩
    · exact Or.inr (by rw [← h1]))

/-- The whole event loop with remapping disabled preserves the MMAP start/len/pgoff
and SAMPLE ip/addr fields of every parsed event. -/
theorem processLoop_evOk (opts : PerfParserOptions) (hremap : opts.do_remap = false) :
    ∀ (idxs : List Nat) (st : ParserState) (fkm : Bool) (st' : ParserState),
      ((∃ fkm', processLoop opts idxs st fkm = StepOutcome.next st' fkm') ∨
        processLoop opts idxs st fkm = StepOutcome.failParse st') →
      evOk st st' := by
  intro idxs
  induction idxs with
  | nil =>
    intro st fkm st' h
    rcases h with ⟨fkm', h1⟩ | h1
    · simp only [processLoop] at h1
      cases h1
      exact evOk_refl st
    · simp only [processLoop] at h1
      cases h1
  | cons i rest ih =>
    intro st fkm st' h
    cases ho : processOneEvent opts st i fkm with
    | fatal =>
      rcases h with ⟨fkm', h1⟩ | h1 <;> (simp only [processLoop, ho] at h1; cases h1)
    | failParse stf =>
      rcases h with ⟨fkm', h1⟩ | h1
      · simp only [processLoop, ho] at h1
        cases h1
      · simp only [processLoop, ho] at h1
        cases h1
        exact processOneEvent_evOk _ _ _ _ _ hremap (Or.inr ho)
    | next st1 fkm1 =>
      have h0 : evOk st st1 := processOneEvent_evOk _ _ _ _ _ hremap (Or.inl ⟨fkm1, ho⟩)
      rcases h with ⟨fkm', h1⟩ | h1
      · simp only [processLoop, ho] at h1
        exact evOk_trans h0 (ih st1 fkm1 st' (Or.inl ⟨fkm', h1⟩))
      · simp only [processLoop, ho] at h1
        exact evOk_trans h0 (ih st1 fkm1 st' (Or.inr h1))

/-- C5: when remapping is disabled (do_remap = false), ProcessEvents leaves the
start, len and pgoff of every MMAP/MMAP2 record and the ip and addr of every
SAMPLE record unchanged: whatever Boolean it returns, each slot of parsed_events
carries the same values of those fields after processing as before. -/
theorem c5_no_remap_preserves_addresses (opts : PerfParserOptions) (skip : Bool)
    (rb : List (String × String)) (st : ParserState) (b : Bool) (st' : ParserState)
    (hremap : opts.do_remap = false)
    (h : processEvents opts skip rb st = some (b, st')) :
    ∀ j : Nat, (st'.parsed_events[j]?).map (fun pe => evFieldsE pe.event) =
      (st.parsed_events[j]?).map (fun pe => evFieldsE pe.event) := by
  unfold processEvents at h
  dsimp only [] at h
  split at h
  · cases h
  · rename_i stf hloop
    cases h
    have hL2 := processLoop_evOk opts hremap _ _ _ _ (Or.inr hloop)
    exact evOk_trans (evOk_of_eventsEq (eventsEq_of_parsed_events_eq rfl)) hL2
  · rename_i stL fkmL hloop
    have hL2 := processLoop_evOk opts hremap _ _ _ _ (Or.inl ⟨fkmL, hloop⟩)
    have hL : evOk st stL :=
      evOk_trans (evOk_of_eventsEq (eventsEq_of_parsed_events_eq rfl)) hL2
    split at h
    · cases h
      exact evOk_trans hL (evOk_of_eventsEq (eventsEq_of_parsed_events_eq rfl))
    · cases h
      exact evOk_trans hL (evOk_of_eventsEq (eventsEq_of_parsed_events_eq rfl))

theorem c5_no_remap_preserves_addresses_witness :
    processEvents ⟨false, false, (95, 1), false⟩ false []
        (initialState [⟨PERF_RECORD_MMAP, 0, none,
          some ⟨7, 7, 4096, 4096, 0, 0, 0, 0, "/bin/x"⟩, none, none⟩]) =
      some (false,
        ⟨[⟨⟨1, 0, none, some ⟨7, 7, 4096, 4096, 0, 0, 0, 0, "/bin/x"⟩, none, none⟩,
            none, ⟨none, 0⟩, ⟨none, 0⟩, [], [], 0⟩],
          [(7, ⟨[⟨4096, 8192, 0, 0, false⟩], 4096⟩)],
          ["swapper"], [((0, 0), "swapper")],
          [("/bin/x", ⟨"/bin/x", 0, 0, 0, "", false, []⟩)],
          ⟨1, 0, 0, 0, 0, 0, 0, 0, false⟩⟩) ∧
    ((⟨[⟨⟨1, 0, none, some ⟨7, 7, 4096, 4096, 0, 0, 0, 0, "/bin/x"⟩, none, none⟩,
          none, ⟨none, 0⟩, ⟨none, 0⟩, [], [], 0⟩],
        [(7, ⟨[⟨4096, 8192, 0, 0, false⟩], 4096⟩)],
        ["swapper"], [((0, 0), "swapper")],
        [("/bin/x", ⟨"/bin/x", 0, 0, 0, "", false, []⟩)],
        ⟨1, 0, 0, 0, 0, 0, 0, 0, false⟩⟩ : ParserState).parsed_events[0]?).map
        (fun pe => evFieldsE pe.event) =
      (((initialState [⟨PERF_RECORD_MMAP, 0, none,
          some ⟨7, 7, 4096, 4096, 0, 0, 0, 0, "/bin/x"⟩, none, none⟩]).parsed_events[0]?).map
        (fun pe => evFieldsE pe.event)) := by
  refine ⟨by decide, ?_⟩
  exact c5_no_remap_preserves_addresses ⟨false, false, (95, 1), false⟩ false []
    (initialState [⟨PERF_RECORD_MMAP, 0, none,
      some ⟨7, 7, 4096, 4096, 0, 0, 0, 0, "/bin/x"⟩, none, none⟩]) false
    ⟨[⟨⟨1, 0, none, some ⟨7, 7, 4096, 4096, 0, 0, 0, 0, "/bin/x"⟩, none, none⟩,
        none, ⟨none, 0⟩, ⟨none, 0⟩, [], [], 0⟩],
      [(7, ⟨[⟨4096, 8192, 0, 0, false⟩], 4096⟩)],
      ["swapper"], [((0, 0), "swapper")],
      [("/bin/x", ⟨"/bin/x", 0, 0, 0, "", false, []⟩)],
      ⟨1, 0, 0, 0, 0, 0, 0, 0, false⟩⟩ rfl (by decide) 0

end PerfParse
